import Mathlib

/-!
Shallow embedding of the stargeezers scripts (cloud02.py, cloud03.py):
a character-level model of the email extraction function, the credential
rotator, the directory lookup and the batch runner, with theorems settling
the specification claims against these definitions.
-/

namespace Stargeezers

/-- The non-ASCII codepoint intervals of the word class the pattern's word
boundaries use. The source pattern is a Python 3 str pattern, so its word
class is the Unicode one: alphanumeric characters and the underscore. This
table lists, as closed intervals, every codepoint at or above 128 that the
interpreter's own word class admits (surrogate codepoints, which no text
holds, lie outside every interval). -/
def uniWordRanges : List (Nat × Nat) := [
  (0xAA, 0xAA), (0xB2, 0xB3), (0xB5, 0xB5), (0xB9, 0xBA), (0xBC, 0xBE), (0xC0, 0xD6),
  (0xD8, 0xF6), (0xF8, 0x2C1), (0x2C6, 0x2D1), (0x2E0, 0x2E4), (0x2EC, 0x2EC), (0x2EE, 0x2EE),
  (0x370, 0x374), (0x376, 0x377), (0x37A, 0x37D), (0x37F, 0x37F), (0x386, 0x386), (0x388, 0x38A),
  (0x38C, 0x38C), (0x38E, 0x3A1), (0x3A3, 0x3F5), (0x3F7, 0x481), (0x48A, 0x52F), (0x531, 0x556),
  (0x559, 0x559), (0x560, 0x588), (0x5D0, 0x5EA), (0x5EF, 0x5F2), (0x620, 0x64A), (0x660, 0x669),
  (0x66E, 0x66F), (0x671, 0x6D3), (0x6D5, 0x6D5), (0x6E5, 0x6E6), (0x6EE, 0x6FC), (0x6FF, 0x6FF),
  (0x710, 0x710), (0x712, 0x72F), (0x74D, 0x7A5), (0x7B1, 0x7B1), (0x7C0, 0x7EA), (0x7F4, 0x7F5),
  (0x7FA, 0x7FA), (0x800, 0x815), (0x81A, 0x81A), (0x824, 0x824), (0x828, 0x828), (0x840, 0x858),
  (0x860, 0x86A), (0x870, 0x887), (0x889, 0x88E), (0x8A0, 0x8C9), (0x904, 0x939), (0x93D, 0x93D),
  (0x950, 0x950), (0x958, 0x961), (0x966, 0x96F), (0x971, 0x980), (0x985, 0x98C), (0x98F, 0x990),
  (0x993, 0x9A8), (0x9AA, 0x9B0), (0x9B2, 0x9B2), (0x9B6, 0x9B9), (0x9BD, 0x9BD), (0x9CE, 0x9CE),
  (0x9DC, 0x9DD), (0x9DF, 0x9E1), (0x9E6, 0x9F1), (0x9F4, 0x9F9), (0x9FC, 0x9FC), (0xA05, 0xA0A),
  (0xA0F, 0xA10), (0xA13, 0xA28), (0xA2A, 0xA30), (0xA32, 0xA33), (0xA35, 0xA36), (0xA38, 0xA39),
  (0xA59, 0xA5C), (0xA5E, 0xA5E), (0xA66, 0xA6F), (0xA72, 0xA74), (0xA85, 0xA8D), (0xA8F, 0xA91),
  (0xA93, 0xAA8), (0xAAA, 0xAB0), (0xAB2, 0xAB3), (0xAB5, 0xAB9), (0xABD, 0xABD), (0xAD0, 0xAD0),
  (0xAE0, 0xAE1), (0xAE6, 0xAEF), (0xAF9, 0xAF9), (0xB05, 0xB0C), (0xB0F, 0xB10), (0xB13, 0xB28),
  (0xB2A, 0xB30), (0xB32, 0xB33), (0xB35, 0xB39), (0xB3D, 0xB3D), (0xB5C, 0xB5D), (0xB5F, 0xB61),
  (0xB66, 0xB6F), (0xB71, 0xB77), (0xB83, 0xB83), (0xB85, 0xB8A), (0xB8E, 0xB90), (0xB92, 0xB95),
  (0xB99, 0xB9A), (0xB9C, 0xB9C), (0xB9E, 0xB9F), (0xBA3, 0xBA4), (0xBA8, 0xBAA), (0xBAE, 0xBB9),
  (0xBD0, 0xBD0), (0xBE6, 0xBF2), (0xC05, 0xC0C), (0xC0E, 0xC10), (0xC12, 0xC28), (0xC2A, 0xC39),
  (0xC3D, 0xC3D), (0xC58, 0xC5A), (0xC5D, 0xC5D), (0xC60, 0xC61), (0xC66, 0xC6F), (0xC78, 0xC7E),
  (0xC80, 0xC80), (0xC85, 0xC8C), (0xC8E, 0xC90), (0xC92, 0xCA8), (0xCAA, 0xCB3), (0xCB5, 0xCB9),
  (0xCBD, 0xCBD), (0xCDD, 0xCDE), (0xCE0, 0xCE1), (0xCE6, 0xCEF), (0xCF1, 0xCF2), (0xD04, 0xD0C),
  (0xD0E, 0xD10), (0xD12, 0xD3A), (0xD3D, 0xD3D), (0xD4E, 0xD4E), (0xD54, 0xD56), (0xD58, 0xD61),
  (0xD66, 0xD78), (0xD7A, 0xD7F), (0xD85, 0xD96), (0xD9A, 0xDB1), (0xDB3, 0xDBB), (0xDBD, 0xDBD),
  (0xDC0, 0xDC6), (0xDE6, 0xDEF), (0xE01, 0xE30), (0xE32, 0xE33), (0xE40, 0xE46), (0xE50, 0xE59),
  (0xE81, 0xE82), (0xE84, 0xE84), (0xE86, 0xE8A), (0xE8C, 0xEA3), (0xEA5, 0xEA5), (0xEA7, 0xEB0),
  (0xEB2, 0xEB3), (0xEBD, 0xEBD), (0xEC0, 0xEC4), (0xEC6, 0xEC6), (0xED0, 0xED9), (0xEDC, 0xEDF),
  (0xF00, 0xF00), (0xF20, 0xF33), (0xF40, 0xF47), (0xF49, 0xF6C), (0xF88, 0xF8C), (0x1000, 0x102A),
  (0x103F, 0x1049), (0x1050, 0x1055), (0x105A, 0x105D), (0x1061, 0x1061), (0x1065, 0x1066), (0x106E, 0x1070),
  (0x1075, 0x1081), (0x108E, 0x108E), (0x1090, 0x1099), (0x10A0, 0x10C5), (0x10C7, 0x10C7), (0x10CD, 0x10CD),
  (0x10D0, 0x10FA), (0x10FC, 0x1248), (0x124A, 0x124D), (0x1250, 0x1256), (0x1258, 0x1258), (0x125A, 0x125D),
  (0x1260, 0x1288), (0x128A, 0x128D), (0x1290, 0x12B0), (0x12B2, 0x12B5), (0x12B8, 0x12BE), (0x12C0, 0x12C0),
  (0x12C2, 0x12C5), (0x12C8, 0x12D6), (0x12D8, 0x1310), (0x1312, 0x1315), (0x1318, 0x135A), (0x1369, 0x137C),
  (0x1380, 0x138F), (0x13A0, 0x13F5), (0x13F8, 0x13FD), (0x1401, 0x166C), (0x166F, 0x167F), (0x1681, 0x169A),
  (0x16A0, 0x16EA), (0x16EE, 0x16F8), (0x1700, 0x1711), (0x171F, 0x1731), (0x1740, 0x1751), (0x1760, 0x176C),
  (0x176E, 0x1770), (0x1780, 0x17B3), (0x17D7, 0x17D7), (0x17DC, 0x17DC), (0x17E0, 0x17E9), (0x17F0, 0x17F9),
  (0x1810, 0x1819), (0x1820, 0x1878), (0x1880, 0x1884), (0x1887, 0x18A8), (0x18AA, 0x18AA), (0x18B0, 0x18F5),
  (0x1900, 0x191E), (0x1946, 0x196D), (0x1970, 0x1974), (0x1980, 0x19AB), (0x19B0, 0x19C9), (0x19D0, 0x19DA),
  (0x1A00, 0x1A16), (0x1A20, 0x1A54), (0x1A80, 0x1A89), (0x1A90, 0x1A99), (0x1AA7, 0x1AA7), (0x1B05, 0x1B33),
  (0x1B45, 0x1B4C), (0x1B50, 0x1B59), (0x1B83, 0x1BA0), (0x1BAE, 0x1BE5), (0x1C00, 0x1C23), (0x1C40, 0x1C49),
  (0x1C4D, 0x1C7D), (0x1C80, 0x1C88), (0x1C90, 0x1CBA), (0x1CBD, 0x1CBF), (0x1CE9, 0x1CEC), (0x1CEE, 0x1CF3),
  (0x1CF5, 0x1CF6), (0x1CFA, 0x1CFA), (0x1D00, 0x1DBF), (0x1E00, 0x1F15), (0x1F18, 0x1F1D), (0x1F20, 0x1F45),
  (0x1F48, 0x1F4D), (0x1F50, 0x1F57), (0x1F59, 0x1F59), (0x1F5B, 0x1F5B), (0x1F5D, 0x1F5D), (0x1F5F, 0x1F7D),
  (0x1F80, 0x1FB4), (0x1FB6, 0x1FBC), (0x1FBE, 0x1FBE), (0x1FC2, 0x1FC4), (0x1FC6, 0x1FCC), (0x1FD0, 0x1FD3),
  (0x1FD6, 0x1FDB), (0x1FE0, 0x1FEC), (0x1FF2, 0x1FF4), (0x1FF6, 0x1FFC), (0x2070, 0x2071), (0x2074, 0x2079),
  (0x207F, 0x2089), (0x2090, 0x209C), (0x2102, 0x2102), (0x2107, 0x2107), (0x210A, 0x2113), (0x2115, 0x2115),
  (0x2119, 0x211D), (0x2124, 0x2124), (0x2126, 0x2126), (0x2128, 0x2128), (0x212A, 0x212D), (0x212F, 0x2139),
  (0x213C, 0x213F), (0x2145, 0x2149), (0x214E, 0x214E), (0x2150, 0x2189), (0x2460, 0x249B), (0x24EA, 0x24FF),
  (0x2776, 0x2793), (0x2C00, 0x2CE4), (0x2CEB, 0x2CEE), (0x2CF2, 0x2CF3), (0x2CFD, 0x2CFD), (0x2D00, 0x2D25),
  (0x2D27, 0x2D27), (0x2D2D, 0x2D2D), (0x2D30, 0x2D67), (0x2D6F, 0x2D6F), (0x2D80, 0x2D96), (0x2DA0, 0x2DA6),
  (0x2DA8, 0x2DAE), (0x2DB0, 0x2DB6), (0x2DB8, 0x2DBE), (0x2DC0, 0x2DC6), (0x2DC8, 0x2DCE), (0x2DD0, 0x2DD6),
  (0x2DD8, 0x2DDE), (0x2E2F, 0x2E2F), (0x3005, 0x3007), (0x3021, 0x3029), (0x3031, 0x3035), (0x3038, 0x303C),
  (0x3041, 0x3096), (0x309D, 0x309F), (0x30A1, 0x30FA), (0x30FC, 0x30FF), (0x3105, 0x312F), (0x3131, 0x318E),
  (0x3192, 0x3195), (0x31A0, 0x31BF), (0x31F0, 0x31FF), (0x3220, 0x3229), (0x3248, 0x324F), (0x3251, 0x325F),
  (0x3280, 0x3289), (0x32B1, 0x32BF), (0x3400, 0x4DBF), (0x4E00, 0xA48C), (0xA4D0, 0xA4FD), (0xA500, 0xA60C),
  (0xA610, 0xA62B), (0xA640, 0xA66E), (0xA67F, 0xA69D), (0xA6A0, 0xA6EF), (0xA717, 0xA71F), (0xA722, 0xA788),
  (0xA78B, 0xA7CA), (0xA7D0, 0xA7D1), (0xA7D3, 0xA7D3), (0xA7D5, 0xA7D9), (0xA7F2, 0xA801), (0xA803, 0xA805),
  (0xA807, 0xA80A), (0xA80C, 0xA822), (0xA830, 0xA835), (0xA840, 0xA873), (0xA882, 0xA8B3), (0xA8D0, 0xA8D9),
  (0xA8F2, 0xA8F7), (0xA8FB, 0xA8FB), (0xA8FD, 0xA8FE), (0xA900, 0xA925), (0xA930, 0xA946), (0xA960, 0xA97C),
  (0xA984, 0xA9B2), (0xA9CF, 0xA9D9), (0xA9E0, 0xA9E4), (0xA9E6, 0xA9FE), (0xAA00, 0xAA28), (0xAA40, 0xAA42),
  (0xAA44, 0xAA4B), (0xAA50, 0xAA59), (0xAA60, 0xAA76), (0xAA7A, 0xAA7A), (0xAA7E, 0xAAAF), (0xAAB1, 0xAAB1),
  (0xAAB5, 0xAAB6), (0xAAB9, 0xAABD), (0xAAC0, 0xAAC0), (0xAAC2, 0xAAC2), (0xAADB, 0xAADD), (0xAAE0, 0xAAEA),
  (0xAAF2, 0xAAF4), (0xAB01, 0xAB06), (0xAB09, 0xAB0E), (0xAB11, 0xAB16), (0xAB20, 0xAB26), (0xAB28, 0xAB2E),
  (0xAB30, 0xAB5A), (0xAB5C, 0xAB69), (0xAB70, 0xABE2), (0xABF0, 0xABF9), (0xAC00, 0xD7A3), (0xD7B0, 0xD7C6),
  (0xD7CB, 0xD7FB), (0xF900, 0xFA6D), (0xFA70, 0xFAD9), (0xFB00, 0xFB06), (0xFB13, 0xFB17), (0xFB1D, 0xFB1D),
  (0xFB1F, 0xFB28), (0xFB2A, 0xFB36), (0xFB38, 0xFB3C), (0xFB3E, 0xFB3E), (0xFB40, 0xFB41), (0xFB43, 0xFB44),
  (0xFB46, 0xFBB1), (0xFBD3, 0xFD3D), (0xFD50, 0xFD8F), (0xFD92, 0xFDC7), (0xFDF0, 0xFDFB), (0xFE70, 0xFE74),
  (0xFE76, 0xFEFC), (0xFF10, 0xFF19), (0xFF21, 0xFF3A), (0xFF41, 0xFF5A), (0xFF66, 0xFFBE), (0xFFC2, 0xFFC7),
  (0xFFCA, 0xFFCF), (0xFFD2, 0xFFD7), (0xFFDA, 0xFFDC), (0x10000, 0x1000B), (0x1000D, 0x10026), (0x10028, 0x1003A),
  (0x1003C, 0x1003D), (0x1003F, 0x1004D), (0x10050, 0x1005D), (0x10080, 0x100FA), (0x10107, 0x10133), (0x10140, 0x10178),
  (0x1018A, 0x1018B), (0x10280, 0x1029C), (0x102A0, 0x102D0), (0x102E1, 0x102FB), (0x10300, 0x10323), (0x1032D, 0x1034A),
  (0x10350, 0x10375), (0x10380, 0x1039D), (0x103A0, 0x103C3), (0x103C8, 0x103CF), (0x103D1, 0x103D5), (0x10400, 0x1049D),
  (0x104A0, 0x104A9), (0x104B0, 0x104D3), (0x104D8, 0x104FB), (0x10500, 0x10527), (0x10530, 0x10563), (0x10570, 0x1057A),
  (0x1057C, 0x1058A), (0x1058C, 0x10592), (0x10594, 0x10595), (0x10597, 0x105A1), (0x105A3, 0x105B1), (0x105B3, 0x105B9),
  (0x105BB, 0x105BC), (0x10600, 0x10736), (0x10740, 0x10755), (0x10760, 0x10767), (0x10780, 0x10785), (0x10787, 0x107B0),
  (0x107B2, 0x107BA), (0x10800, 0x10805), (0x10808, 0x10808), (0x1080A, 0x10835), (0x10837, 0x10838), (0x1083C, 0x1083C),
  (0x1083F, 0x10855), (0x10858, 0x10876), (0x10879, 0x1089E), (0x108A7, 0x108AF), (0x108E0, 0x108F2), (0x108F4, 0x108F5),
  (0x108FB, 0x1091B), (0x10920, 0x10939), (0x10980, 0x109B7), (0x109BC, 0x109CF), (0x109D2, 0x10A00), (0x10A10, 0x10A13),
  (0x10A15, 0x10A17), (0x10A19, 0x10A35), (0x10A40, 0x10A48), (0x10A60, 0x10A7E), (0x10A80, 0x10A9F), (0x10AC0, 0x10AC7),
  (0x10AC9, 0x10AE4), (0x10AEB, 0x10AEF), (0x10B00, 0x10B35), (0x10B40, 0x10B55), (0x10B58, 0x10B72), (0x10B78, 0x10B91),
  (0x10BA9, 0x10BAF), (0x10C00, 0x10C48), (0x10C80, 0x10CB2), (0x10CC0, 0x10CF2), (0x10CFA, 0x10D23), (0x10D30, 0x10D39),
  (0x10E60, 0x10E7E), (0x10E80, 0x10EA9), (0x10EB0, 0x10EB1), (0x10F00, 0x10F27), (0x10F30, 0x10F45), (0x10F51, 0x10F54),
  (0x10F70, 0x10F81), (0x10FB0, 0x10FCB), (0x10FE0, 0x10FF6), (0x11003, 0x11037), (0x11052, 0x1106F), (0x11071, 0x11072),
  (0x11075, 0x11075), (0x11083, 0x110AF), (0x110D0, 0x110E8), (0x110F0, 0x110F9), (0x11103, 0x11126), (0x11136, 0x1113F),
  (0x11144, 0x11144), (0x11147, 0x11147), (0x11150, 0x11172), (0x11176, 0x11176), (0x11183, 0x111B2), (0x111C1, 0x111C4),
  (0x111D0, 0x111DA), (0x111DC, 0x111DC), (0x111E1, 0x111F4), (0x11200, 0x11211), (0x11213, 0x1122B), (0x11280, 0x11286),
  (0x11288, 0x11288), (0x1128A, 0x1128D), (0x1128F, 0x1129D), (0x1129F, 0x112A8), (0x112B0, 0x112DE), (0x112F0, 0x112F9),
  (0x11305, 0x1130C), (0x1130F, 0x11310), (0x11313, 0x11328), (0x1132A, 0x11330), (0x11332, 0x11333), (0x11335, 0x11339),
  (0x1133D, 0x1133D), (0x11350, 0x11350), (0x1135D, 0x11361), (0x11400, 0x11434), (0x11447, 0x1144A), (0x11450, 0x11459),
  (0x1145F, 0x11461), (0x11480, 0x114AF), (0x114C4, 0x114C5), (0x114C7, 0x114C7), (0x114D0, 0x114D9), (0x11580, 0x115AE),
  (0x115D8, 0x115DB), (0x11600, 0x1162F), (0x11644, 0x11644), (0x11650, 0x11659), (0x11680, 0x116AA), (0x116B8, 0x116B8),
  (0x116C0, 0x116C9), (0x11700, 0x1171A), (0x11730, 0x1173B), (0x11740, 0x11746), (0x11800, 0x1182B), (0x118A0, 0x118F2),
  (0x118FF, 0x11906), (0x11909, 0x11909), (0x1190C, 0x11913), (0x11915, 0x11916), (0x11918, 0x1192F), (0x1193F, 0x1193F),
  (0x11941, 0x11941), (0x11950, 0x11959), (0x119A0, 0x119A7), (0x119AA, 0x119D0), (0x119E1, 0x119E1), (0x119E3, 0x119E3),
  (0x11A00, 0x11A00), (0x11A0B, 0x11A32), (0x11A3A, 0x11A3A), (0x11A50, 0x11A50), (0x11A5C, 0x11A89), (0x11A9D, 0x11A9D),
  (0x11AB0, 0x11AF8), (0x11C00, 0x11C08), (0x11C0A, 0x11C2E), (0x11C40, 0x11C40), (0x11C50, 0x11C6C), (0x11C72, 0x11C8F),
  (0x11D00, 0x11D06), (0x11D08, 0x11D09), (0x11D0B, 0x11D30), (0x11D46, 0x11D46), (0x11D50, 0x11D59), (0x11D60, 0x11D65),
  (0x11D67, 0x11D68), (0x11D6A, 0x11D89), (0x11D98, 0x11D98), (0x11DA0, 0x11DA9), (0x11EE0, 0x11EF2), (0x11FB0, 0x11FB0),
  (0x11FC0, 0x11FD4), (0x12000, 0x12399), (0x12400, 0x1246E), (0x12480, 0x12543), (0x12F90, 0x12FF0), (0x13000, 0x1342E),
  (0x14400, 0x14646), (0x16800, 0x16A38), (0x16A40, 0x16A5E), (0x16A60, 0x16A69), (0x16A70, 0x16ABE), (0x16AC0, 0x16AC9),
  (0x16AD0, 0x16AED), (0x16B00, 0x16B2F), (0x16B40, 0x16B43), (0x16B50, 0x16B59), (0x16B5B, 0x16B61), (0x16B63, 0x16B77),
  (0x16B7D, 0x16B8F), (0x16E40, 0x16E96), (0x16F00, 0x16F4A), (0x16F50, 0x16F50), (0x16F93, 0x16F9F), (0x16FE0, 0x16FE1),
  (0x16FE3, 0x16FE3), (0x17000, 0x187F7), (0x18800, 0x18CD5), (0x18D00, 0x18D08), (0x1AFF0, 0x1AFF3), (0x1AFF5, 0x1AFFB),
  (0x1AFFD, 0x1AFFE), (0x1B000, 0x1B122), (0x1B150, 0x1B152), (0x1B164, 0x1B167), (0x1B170, 0x1B2FB), (0x1BC00, 0x1BC6A),
  (0x1BC70, 0x1BC7C), (0x1BC80, 0x1BC88), (0x1BC90, 0x1BC99), (0x1D2E0, 0x1D2F3), (0x1D360, 0x1D378), (0x1D400, 0x1D454),
  (0x1D456, 0x1D49C), (0x1D49E, 0x1D49F), (0x1D4A2, 0x1D4A2), (0x1D4A5, 0x1D4A6), (0x1D4A9, 0x1D4AC), (0x1D4AE, 0x1D4B9),
  (0x1D4BB, 0x1D4BB), (0x1D4BD, 0x1D4C3), (0x1D4C5, 0x1D505), (0x1D507, 0x1D50A), (0x1D50D, 0x1D514), (0x1D516, 0x1D51C),
  (0x1D51E, 0x1D539), (0x1D53B, 0x1D53E), (0x1D540, 0x1D544), (0x1D546, 0x1D546), (0x1D54A, 0x1D550), (0x1D552, 0x1D6A5),
  (0x1D6A8, 0x1D6C0), (0x1D6C2, 0x1D6DA), (0x1D6DC, 0x1D6FA), (0x1D6FC, 0x1D714), (0x1D716, 0x1D734), (0x1D736, 0x1D74E),
  (0x1D750, 0x1D76E), (0x1D770, 0x1D788), (0x1D78A, 0x1D7A8), (0x1D7AA, 0x1D7C2), (0x1D7C4, 0x1D7CB), (0x1D7CE, 0x1D7FF),
  (0x1DF00, 0x1DF1E), (0x1E100, 0x1E12C), (0x1E137, 0x1E13D), (0x1E140, 0x1E149), (0x1E14E, 0x1E14E), (0x1E290, 0x1E2AD),
  (0x1E2C0, 0x1E2EB), (0x1E2F0, 0x1E2F9), (0x1E7E0, 0x1E7E6), (0x1E7E8, 0x1E7EB), (0x1E7ED, 0x1E7EE), (0x1E7F0, 0x1E7FE),
  (0x1E800, 0x1E8C4), (0x1E8C7, 0x1E8CF), (0x1E900, 0x1E943), (0x1E94B, 0x1E94B), (0x1E950, 0x1E959), (0x1EC71, 0x1ECAB),
  (0x1ECAD, 0x1ECAF), (0x1ECB1, 0x1ECB4), (0x1ED01, 0x1ED2D), (0x1ED2F, 0x1ED3D), (0x1EE00, 0x1EE03), (0x1EE05, 0x1EE1F),
  (0x1EE21, 0x1EE22), (0x1EE24, 0x1EE24), (0x1EE27, 0x1EE27), (0x1EE29, 0x1EE32), (0x1EE34, 0x1EE37), (0x1EE39, 0x1EE39),
  (0x1EE3B, 0x1EE3B), (0x1EE42, 0x1EE42), (0x1EE47, 0x1EE47), (0x1EE49, 0x1EE49), (0x1EE4B, 0x1EE4B), (0x1EE4D, 0x1EE4F),
  (0x1EE51, 0x1EE52), (0x1EE54, 0x1EE54), (0x1EE57, 0x1EE57), (0x1EE59, 0x1EE59), (0x1EE5B, 0x1EE5B), (0x1EE5D, 0x1EE5D),
  (0x1EE5F, 0x1EE5F), (0x1EE61, 0x1EE62), (0x1EE64, 0x1EE64), (0x1EE67, 0x1EE6A), (0x1EE6C, 0x1EE72), (0x1EE74, 0x1EE77),
  (0x1EE79, 0x1EE7C), (0x1EE7E, 0x1EE7E), (0x1EE80, 0x1EE89), (0x1EE8B, 0x1EE9B), (0x1EEA1, 0x1EEA3), (0x1EEA5, 0x1EEA9),
  (0x1EEAB, 0x1EEBB), (0x1F100, 0x1F10C), (0x1FBF0, 0x1FBF9), (0x20000, 0x2A6DF), (0x2A700, 0x2B738), (0x2B740, 0x2B81D),
  (0x2B820, 0x2CEA1), (0x2CEB0, 0x2EBE0), (0x2F800, 0x2FA1D), (0x30000, 0x3134A)]

/-- Word character of the pattern's word boundaries: below 128 exactly the
ASCII letters, digits and underscore; at or above 128 the Unicode
alphanumerics of uniWordRanges. -/
def isWordChar (c : Char) : Bool :=
  if c.toNat < 128 then c.isAlpha || c.isDigit || c == '_'
  else uniWordRanges.any fun r => decide (r.1 ≤ c.toNat) && decide (c.toNat ≤ r.2)

/-- Characters the pattern admits before the at sign. -/
def localChar (c : Char) : Bool :=
  c.isAlpha || c.isDigit || c == '.' || c == '_' || c == '%' || c == '+' || c == '-'

/-- Characters the pattern admits between the at sign and the final dot. -/
def domainChar (c : Char) : Bool := c.isAlpha || c.isDigit || c == '.' || c == '-'

/-- Characters the pattern admits after the final dot: the source writes the
class [A-Z|a-z], which admits the pipe character besides the letters. -/
def tldChar (c : Char) : Bool := c.isAlpha || c == '|'

/-- Wordness of a stream position; an absent position (edge of text) is
non-word. -/
def wordAt : Option Char → Bool
  | none => false
  | some c => isWordChar c

/-- A word boundary sits between two adjacent positions iff exactly one of
them holds a word character. -/
def boundary (a b : Option Char) : Bool := wordAt a != wordAt b

/-- Backtracking search for the greedy length of the final dot-segment:
lengths are tried from `j` downwards, at least 2, and a candidate length is
accepted when a word boundary follows its last character. The caller only
calls this with `j` at most the length of the run of final-segment
characters, so all candidate segments are made of admissible characters. -/
def tldTry (u : List Char) : Nat → Option Nat
  | 0 => none
  | 1 => none
  | j + 2 =>
    if boundary (u.get? (j + 1)) (u.get? (j + 2)) then some (j + 2)
    else tldTry u (j + 1)

/-- Greedy search for the final dot-segment in `u`, the text following the
dot: start from the full run of admissible characters. -/
def tldSearch (u : List Char) : Option Nat := tldTry u (u.takeWhile tldChar).length

/-- Backtracking search for the domain part in `v`, the text following the
at sign: domain lengths are tried from `i` downwards, at least 1; a length
is viable when a literal dot follows it and a final segment can be matched
after that dot. Returns the domain length and final-segment length. -/
def dotSearch (v : List Char) : Nat → Option (Nat × Nat)
  | 0 => none
  | i + 1 =>
    if v.get? (i + 1) = some '.' then
      match tldSearch (v.drop (i + 2)) with
      | some j => some (i + 1, j)
      | none => dotSearch v i
    else dotSearch v i

/-- One anchored attempt of the pattern at the current position: word
boundary, maximal nonempty run of local characters, a literal at sign, then
the domain/dot/final-segment search; greedy with backtracking, exactly the
order the regex engine uses. -/
def matchAt (prev : Option Char) (s : List Char) : Option (List Char) :=
  if boundary prev s.head? = false then none
  else if s.takeWhile localChar = [] then none
  else
    match s.dropWhile localChar with
    | '@' :: v =>
      match dotSearch v (v.takeWhile domainChar).length with
      | some (i, j) =>
        some (s.takeWhile localChar ++ '@' :: (v.take i ++ '.' :: (v.drop (i + 1)).take j))
      | none => none
    | _ => none

/-- Leftmost scan of the text: the first position where the anchored attempt
succeeds yields the first match, as re.findall reports it. -/
def scanText : Option Char → List Char → Option (List Char)
  | prev, [] => matchAt prev []
  | prev, c :: cs =>
    match matchAt prev (c :: cs) with
    | some m => some m
    | none => scanText (some c) cs

/-- Python str.strip(cs): remove the characters of `cs` from both edges. -/
def pyStrip (cs : List Char) (s : List Char) : List Char :=
  ((s.dropWhile cs.contains).reverse.dropWhile cs.contains).reverse

/-- The characters the source strips from the edges of a match (the Python
literal is the string of a double quote, angle brackets, square brackets and
parentheses). -/
def stripSet : List Char := ['\"', '<', '>', '[', ']', '(', ')']

/-- extract_email (cloud02.py lines 31-36, cloud03.py lines 29-34): first
match of the pattern in the text, with the edge characters stripped; None
when the text has no match. -/
def extract_email (t : List Char) : Option (List Char) :=
  (scanText none t).map (pyStrip stripSet)

/-! ### Declarative reading of the pattern

A match of the pattern, read declaratively: a nonempty run of local
characters, an at sign, a nonempty run of domain characters, a literal dot
and a final segment of length at least two, the whole flanked by word
boundaries. -/

/-- `m` is a match of the pattern sitting at the very front of `s`, whose
previous character is `prev`. -/
def MatchFrom (prev : Option Char) (s m : List Char) : Prop :=
  ∃ l d tl rest,
    m = l ++ '@' :: (d ++ '.' :: tl) ∧
    s = m ++ rest ∧
    l ≠ [] ∧ (∀ c ∈ l, localChar c = true) ∧
    d ≠ [] ∧ (∀ c ∈ d, domainChar c = true) ∧
    2 ≤ tl.length ∧ (∀ c ∈ tl, tldChar c = true) ∧
    boundary prev m.head? = true ∧
    boundary tl.getLast? rest.head? = true

/-- The character just before position `p` of a stream whose own previous
character (at position 0) is `prev`. -/
def prevOf (prev : Option Char) (s : List Char) (p : Nat) : Option Char :=
  if p = 0 then prev else s.get? (p - 1)

/-- `m` is a boundary-flanked match of the pattern occurring at position `p`
of `t`. -/
def SpecMatchAt (t : List Char) (p : Nat) (m : List Char) : Prop :=
  MatchFrom (prevOf none t p) (t.drop p) m

/-! ### The claim's address grammar, word for word

The specification describes the final dot-segment as made of letters only
(the source class also admits the pipe character) and never mentions the
word boundaries. These decision procedures state, by brute force, whether a
word or some substring of a text belongs to that claimed grammar. -/

/-- `m` consists, exactly, of: one or more local characters, an at sign, one
or more domain characters, a dot, and two or more letters. -/
def claimGrammarWord (m : List Char) : Bool :=
  (List.range m.length).any fun a =>
    decide (1 ≤ a) && (m.get? a == some '@') && ((m.take a).all localChar) &&
    ((List.range (m.length + 1)).any fun b =>
      decide (a + 2 ≤ b) && (m.get? b == some '.') &&
      (((m.drop (a + 1)).take (b - (a + 1))).all domainChar) &&
      decide (b + 3 ≤ m.length) && ((m.drop (b + 1)).all Char.isAlpha))

/-- Some contiguous substring of `t` belongs to the claimed grammar. -/
def claimHasGrammarSub (t : List Char) : Bool :=
  (List.range (t.length + 1)).any fun p =>
    (List.range (t.length + 1)).any fun n => claimGrammarWord ((t.drop p).take n)

/-! ### Resilient transport (requests_retry_session, cloud02.py lines 16-28) -/

/-- The retry policy requests_retry_session mounts on a session: total, read
and connect retry budgets, the backoff factor (the source value 0.3, held
here in tenths) and the statuses that force a retry. -/
structure RetryPolicy where
  total : Nat
  readRetries : Nat
  connectRetries : Nat
  backoff_factor_tenths : Nat
  status_forcelist : List Nat
deriving DecidableEq, Repr

/-- requests_retry_session with its default arguments: 3 retries on
connection failures, read timeouts and the statuses 500, 502, 504, with
exponential backoff of base factor 0.3. -/
def requests_retry_session : RetryPolicy :=
  { total := 3, readRetries := 3, connectRetries := 3,
    backoff_factor_tenths := 3, status_forcelist := [500, 502, 504] }

/-- One remote GET: its url and the retry policy of the session issuing it;
`none` stands for a bare requests.get with no mounted adapter. -/
structure ApiRequest where
  url : List Char
  retry : Option RetryPolicy
deriving DecidableEq, Repr

/-! ### Credential rotator (GitHubApiHandler, cloud02.py lines 39-71) -/

/-- The mutable state of GitHubApiHandler. -/
structure GitHubApiHandler where
  api_keys : List (List Char)
  current_key_index : Nat
  request_count : Nat
  failed_attempts : Nat
deriving DecidableEq, Repr

/-- The constant the constructor stores (never consulted afterwards). -/
def max_requests_per_key : Nat := 3650

/-- The handler as __init__ builds it. -/
def GitHubApiHandler.init (keys : List (List Char)) : GitHubApiHandler :=
  { api_keys := keys, current_key_index := 0, request_count := 0,
    failed_attempts := 0 }

/-- The remote responses one resolve observes: the quota query's status and
remaining count, the profile query's status and structured email field
(`none` models an absent or null JSON field), and the fallback document
query's status and body. -/
structure UserEnv where
  rateStatus : Nat
  rateRemaining : Nat
  userStatus : Nat
  userEmailField : Option (List Char)
  readmeStatus : Nat
  readmeBody : List Char
deriving DecidableEq, Repr

def rate_limit_url : List Char := "https://api.github.com/rate_limit".toList

def users_url (username : List Char) : List Char :=
  "https://api.github.com/users/".toList ++ username

def readme_url (username : List Char) : List Char :=
  "https://raw.githubusercontent.com/".toList ++ username ++ "/".toList ++
    username ++ "/main/README.md".toList

/-- get_remaining_requests (cloud02.py lines 63-71): the remaining quota the
service reports for the active key, taken as 0 when the query is not a 200;
the request goes through the retry session. -/
def get_remaining_requests (env : UserEnv) : Nat × List ApiRequest :=
  (if env.rateStatus = 200 then env.rateRemaining else 0,
   [{ url := rate_limit_url, retry := some requests_retry_session }])

/-- What one quota check leaves behind: the handler, how long the call slept
and the requests it issued. -/
structure RotatorStep where
  handler : GitHubApiHandler
  sleepSeconds : Nat
  trace : List ApiRequest
deriving DecidableEq, Repr

/-- check_and_switch_key (cloud02.py lines 50-61): rotate to the next key
when the remaining quota is below 10, counting consecutive rotations; when
the counter reaches 18 the call sleeps 3900 seconds and resets it. -/
def check_and_switch_key (h : GitHubApiHandler) (env : UserEnv) : RotatorStep :=
  let rr := get_remaining_requests env
  if rr.1 < 10 then
    let h1 : GitHubApiHandler :=
      { h with current_key_index := (h.current_key_index + 1) % h.api_keys.length,
               request_count := 0,
               failed_attempts := h.failed_attempts + 1 }
    if 18 ≤ h1.failed_attempts then
      { handler := { h1 with failed_attempts := 0 }, sleepSeconds := 3900, trace := rr.2 }
    else
      { handler := h1, sleepSeconds := 0, trace := rr.2 }
  else
    { handler := h, sleepSeconds := 0, trace := rr.2 }

/-- `n` successive quota checks against the same environment: the final
handler and the list of seconds each call slept. -/
def checkRepeat (env : UserEnv) : GitHubApiHandler → Nat → GitHubApiHandler × List Nat
  | h, 0 => (h, [])
  | h, n + 1 =>
    let step := check_and_switch_key h env
    let rest := checkRepeat env step.handler n
    (rest.1, step.sleepSeconds :: rest.2)

/-! ### Directory lookup (cloud02.py lines 73-95) -/

/-- Python str.split for a one-character separator. -/
def splitOnChar (c : Char) : List Char → List (List Char)
  | [] => [[]]
  | x :: xs =>
    if x = c then [] :: splitOnChar c xs
    else
      match splitOnChar c xs with
      | [] => [[x]]
      | h :: t => (x :: h) :: t

def github_url_stem : List Char := "https://github.com/".toList

/-- The username computation of get_user_info_from_github_api (cloud02.py
lines 77-80): a reference starting with the GitHub URL stem is replaced by
its last slash-separated segment (split('/')[-1]); any other reference is
used unchanged. -/
def normalizeHandle (r : List Char) : List Char :=
  if github_url_stem.isPrefixOf r then (splitOnChar '/' r).getLastD [] else r

/-- What one resolve leaves behind: the handler, the seconds slept by the
quota check, the resulting email, how many document fetches were made, and
the requests issued. -/
structure LookupResult where
  handler : GitHubApiHandler
  sleepSeconds : Nat
  email : Option (List Char)
  readmeFetches : Nat
  trace : List ApiRequest
deriving DecidableEq, Repr

/-- get_email_from_readme (cloud02.py lines 90-95): fetch the per-user
README with a bare requests.get and extract an email from its body; None on
a non-200. -/
def get_email_from_readme (username : List Char) (env : UserEnv) :
    Option (List Char) × List ApiRequest :=
  (if env.readmeStatus = 200 then extract_email env.readmeBody else none,
   [{ url := readme_url username, retry := none }])

/-- get_user_info_from_github_api (cloud02.py lines 73-88): quota check,
profile query, then the structured email field if non-empty, else the
README fallback; None when the profile query is not a 200. -/
def get_user_info_from_github_api (h : GitHubApiHandler) (env : UserEnv)
    (username_or_url : List Char) : LookupResult :=
  let step := check_and_switch_key h env
  let h1 := { step.handler with request_count := step.handler.request_count + 1 }
  let username := normalizeHandle username_or_url
  let userReq : ApiRequest := { url := users_url username, retry := some requests_retry_session }
  if env.userStatus ≠ 200 then
    { handler := h1, sleepSeconds := step.sleepSeconds, email := none,
      readmeFetches := 0, trace := step.trace ++ [userReq] }
  else if (env.userEmailField.getD []).isEmpty then
    let rm := get_email_from_readme username env
    { handler := h1, sleepSeconds := step.sleepSeconds, email := rm.1,
      readmeFetches := 1, trace := step.trace ++ [userReq] ++ rm.2 }
  else
    { handler := h1, sleepSeconds := step.sleepSeconds,
      email := some (env.userEmailField.getD []), readmeFetches := 0,
      trace := step.trace ++ [userReq] }

/-! ### Batch runner (main, cloud02.py lines 98-164) -/

/-- One input record: Username, User ID, Profile URL and the optional
Status cell. -/
structure InRow where
  username : List Char
  user_id : List Char
  profile_url : List Char
  status : Option (List Char)
deriving DecidableEq, Repr

/-- One output record. -/
structure OutRow where
  username : List Char
  user_id : List Char
  profile_url : List Char
  email : List Char
deriving DecidableEq, Repr

/-- What one per-record call of the lookup did: returned an email value, or
raised. -/
inductive LookupOutcome where
  | ok (email : Option (List Char))
  | err
deriving DecidableEq, Repr

/-- The loop's state: the in-memory input and output frames, the processed
set, the unflushed buffer, the checkpoint timer, and the two persisted
stores. -/
structure RunState where
  input : List InRow
  output : List OutRow
  processed : List (List Char)
  new_rows : List OutRow
  last_save_time : Nat
  inputStore : List InRow
  outputStore : List OutRow
deriving DecidableEq, Repr

def doneMark : List Char := "Done".toList

/-- The loop's skip test (cloud02.py line 121): Status is already Done, or
the profile url is in the processed set. -/
def skipsRow (st : RunState) (row : InRow) : Bool :=
  row.status == some doneMark || st.processed.contains row.profile_url

/-- Python truthiness of the email the lookup returned. -/
def truthyEmail : Option (List Char) → Bool
  | none => false
  | some e => !e.isEmpty

/-- The periodic save (cloud02.py lines 141-149): flush the buffer to the
output frame and store when non-empty, rewrite the input store, reset the
timer. -/
def saveProgress (st : RunState) (now : Nat) : RunState :=
  let st1 := if st.new_rows.isEmpty then st
             else { st with output := st.output ++ st.new_rows,
                            outputStore := st.output ++ st.new_rows,
                            new_rows := [] }
  { st1 with inputStore := st1.input, last_save_time := now }

/-- The output record the loop appends for a resolved input record. -/
def rowToOut (row : InRow) (email : List Char) : OutRow :=
  { username := row.username, user_id := row.user_id,
    profile_url := row.profile_url, email := email }

/-- One iteration of the loop body (cloud02.py lines 119-152) for the record
at position `idx`, given what the lookup did and the wall clock `now`: skip,
or append/mark on a truthy email, then checkpoint when more than 30 minutes
(1800 seconds) have passed; an exception leaves the state untouched. -/
def processRecord (st : RunState) (idx : Nat) (row : InRow) (oc : LookupOutcome)
    (now : Nat) : RunState :=
  if skipsRow st row then st
  else
    match oc with
    | .err => st
    | .ok em =>
      let st1 := if truthyEmail em then
          { st with
            new_rows := st.new_rows ++ [rowToOut row (em.getD [])],
            processed := st.processed ++ [row.profile_url],
            input := st.input.set idx { row with status := some doneMark } }
        else st
      if 1800 < now - st1.last_save_time then saveProgress st1 now else st1

/-- The iteration over the remaining records, the next one sitting at
position `i` of the input frame. -/
def mainLoopFrom : RunState → Nat → List (InRow × LookupOutcome × Nat) → RunState
  | st, _, [] => st
  | st, i, (row, oc, now) :: rest =>
    mainLoopFrom (processRecord st i row oc now) (i + 1) rest

/-- The positions whose records the loop hands to the lookup (the records it
does not skip). -/
def attemptedFrom : RunState → Nat → List (InRow × LookupOutcome × Nat) → List Nat
  | _, _, [] => []
  | st, i, (row, oc, now) :: rest =>
    (if skipsRow st row then [] else [i]) ++
      attemptedFrom (processRecord st i row oc now) (i + 1) rest

/-- The final save after the loop (cloud02.py lines 154-159): flush the
buffer when non-empty, rewrite the input store. -/
def finalSave (st : RunState) : RunState :=
  let st1 := if st.new_rows.isEmpty then st
             else { st with output := st.output ++ st.new_rows,
                            outputStore := st.output ++ st.new_rows }
  { st1 with inputStore := st1.input }

/-- The state main builds before the loop (cloud02.py lines 100-118): the
output store read back when present (the empty list models both an absent
and an empty store) and the processed set derived from it. -/
def initState (input0 : List InRow) (output0 : List OutRow) (t0 : Nat) : RunState :=
  { input := input0, output := output0,
    processed := output0.map OutRow.profile_url,
    new_rows := [], last_save_time := t0,
    inputStore := input0, outputStore := output0 }

/-- The iteration list: each input record paired with what its lookup did
and the wall clock at its iteration. -/
def runPairs (input0 : List InRow) (oracle : List (LookupOutcome × Nat)) :
    List (InRow × LookupOutcome × Nat) :=
  input0.zipWith (fun r p => (r, p.1, p.2)) oracle

/-- One whole run of main's record loop. -/
def runMain (input0 : List InRow) (output0 : List OutRow) (t0 : Nat)
    (oracle : List (LookupOutcome × Nat)) : RunState :=
  finalSave (mainLoopFrom (initState input0 output0 t0) 0 (runPairs input0 oracle))

/-- The rows one iteration adds to the run (empty on a skip, an exception,
or a falsy email). -/
def stepApp (st : RunState) (row : InRow) (oc : LookupOutcome) : List OutRow :=
  if skipsRow st row then []
  else match oc with
    | .err => []
    | .ok em => if truthyEmail em then [rowToOut row (em.getD [])] else []

/-- A two-credential pool and an environment whose quota query fails. -/
def keysAB : List (List Char) := [['a'], ['b']]

/-- An environment whose quota query is a non-200 (so remaining reads 0). -/
def envLow : UserEnv :=
  { rateStatus := 404, rateRemaining := 50, userStatus := 200,
    userEmailField := none, readmeStatus := 404, readmeBody := [] }

/-- An environment forcing the README fallback: profile query 200 with an
absent structured field. -/
def envFallback : UserEnv :=
  { rateStatus := 200, rateRemaining := 100, userStatus := 200,
    userEmailField := none, readmeStatus := 404, readmeBody := [] }

/-- Two input records sharing one profile url, neither marked Done, with a
startup output store that is empty. -/
def rowP1 : InRow :=
  { username := ['u'], user_id := ['1'], profile_url := ['p'], status := none }

def rowP2 : InRow :=
  { username := ['v'], user_id := ['2'], profile_url := ['p'], status := none }

def cexOracle : List (LookupOutcome × Nat) :=
  [(.ok (some ['e', '@', 'x', '.', 'c', 'c']), 0), (.ok (some ['f']), 0)]

/-! ## The credential rotator: claims C2 and C3 -/

/-- One low-quota check whose counter stays under the threshold: the index
rotates, the counter climbs by one, no sleep happens. -/
theorem check_low_step (h : GitHubApiHandler) (env : UserEnv)
    (hlow : (get_remaining_requests env).1 < 10)
    (hcnt : h.failed_attempts + 1 < 18) :
    check_and_switch_key h env =
      { handler :=
          { h with current_key_index := (h.current_key_index + 1) % h.api_keys.length,
                   request_count := 0,
                   failed_attempts := h.failed_attempts + 1 },
        sleepSeconds := 0,
        trace := (get_remaining_requests env).2 } := by
  unfold check_and_switch_key
  rw [if_pos hlow, if_neg (by simp; omega)]

/-- One low-quota check that drives the counter to the threshold: the call
sleeps 3900 seconds and resets the counter. -/
theorem check_low_block (h : GitHubApiHandler) (env : UserEnv)
    (hlow : (get_remaining_requests env).1 < 10)
    (hcnt : h.failed_attempts = 17) :
    (check_and_switch_key h env).sleepSeconds = 3900 ∧
    (check_and_switch_key h env).handler.failed_attempts = 0 := by
  unfold check_and_switch_key
  rw [if_pos hlow, if_pos (by simp [hcnt])]
  exact ⟨rfl, rfl⟩

/-- A run of low-quota checks below the threshold: the counter climbs one
per call and no call sleeps. -/
theorem checkRepeat_low_run (env : UserEnv)
    (hlow : (get_remaining_requests env).1 < 10) :
    ∀ n (h : GitHubApiHandler), h.failed_attempts + n < 18 →
      (checkRepeat env h n).1.failed_attempts = h.failed_attempts + n ∧
      ∀ s ∈ (checkRepeat env h n).2, s = 0 := by
  intro n
  induction n with
  | zero =>
    intro h _
    exact ⟨rfl, by simp [checkRepeat]⟩
  | succ n ih =>
    intro h hlt
    have hstep := check_low_step h env hlow (by omega)
    have hrec := ih (check_and_switch_key h env).handler (by rw [hstep]; simp; omega)
    constructor
    · show (checkRepeat env h (n + 1)).1.failed_attempts = _
      unfold checkRepeat
      rw [hrec.1, hstep]
      simp
      omega
    · intro s hs
      unfold checkRepeat at hs
      simp at hs
      rcases hs with hs | hs
      · rw [hstep] at hs; exact hs
      · exact hrec.2 s hs

/-- C2 (confirmed): with a non-empty credential pool, a quota reading below
10 advances the index to (index+1) mod pool size, a non-200 quota response
reads as remaining 0 (hence also rotates), and a reading of 10 or more
leaves the handler untouched. -/
theorem c2_quota_rotation (h : GitHubApiHandler) (env : UserEnv)
    (hpool : h.api_keys ≠ []) :
    (env.rateStatus ≠ 200 → (get_remaining_requests env).1 = 0) ∧
    ((get_remaining_requests env).1 < 10 →
      (check_and_switch_key h env).handler.current_key_index =
        (h.current_key_index + 1) % h.api_keys.length) ∧
    (10 ≤ (get_remaining_requests env).1 →
      (check_and_switch_key h env).handler = h) := by
  refine ⟨?_, ?_, ?_⟩
  · intro hst
    simp [get_remaining_requests, if_neg hst]
  · intro hlt
    unfold check_and_switch_key
    rw [if_pos hlt]
    dsimp only
    split <;> rfl
  · intro hge
    unfold check_and_switch_key
    rw [if_neg (by omega)]

/-- Witness for C2 at a concrete pool and environment. -/
theorem c2_quota_rotation_witness :
    (envLow.rateStatus ≠ 200 → (get_remaining_requests envLow).1 = 0) ∧
    ((get_remaining_requests envLow).1 < 10 →
      (check_and_switch_key (GitHubApiHandler.init keysAB) envLow).handler.current_key_index =
        ((GitHubApiHandler.init keysAB).current_key_index + 1) %
          (GitHubApiHandler.init keysAB).api_keys.length) ∧
    (10 ≤ (get_remaining_requests envLow).1 →
      (check_and_switch_key (GitHubApiHandler.init keysAB) envLow).handler =
        GitHubApiHandler.init keysAB) :=
  c2_quota_rotation (GitHubApiHandler.init keysAB) envLow (by decide)

/-- C3 (corrected, amended claim): a quota check that finds the counter at
17 and low quota is the call that blocks for 3900 seconds and resets the
counter to 0; starting from a fresh handler, 17 consecutive low-quota
checks sleep 0 and leave the counter at 17, and the 18th low-quota
detection is the one that blocks. -/
theorem c3_cooldown_amended (env : UserEnv) (keys : List (List Char))
    (hlow : (get_remaining_requests env).1 < 10) :
    (∀ h2 : GitHubApiHandler, h2.failed_attempts = 17 →
      (check_and_switch_key h2 env).sleepSeconds = 3900 ∧
      (check_and_switch_key h2 env).handler.failed_attempts = 0) ∧
    (∀ s ∈ (checkRepeat env (GitHubApiHandler.init keys) 17).2, s = 0) ∧
    (checkRepeat env (GitHubApiHandler.init keys) 17).1.failed_attempts = 17 ∧
    (check_and_switch_key (checkRepeat env (GitHubApiHandler.init keys) 17).1 env).sleepSeconds = 3900 ∧
    (check_and_switch_key (checkRepeat env (GitHubApiHandler.init keys) 17).1 env).handler.failed_attempts = 0 := by
  have hrun := checkRepeat_low_run env hlow 17 (GitHubApiHandler.init keys) (by simp [GitHubApiHandler.init])
  have h17 : (checkRepeat env (GitHubApiHandler.init keys) 17).1.failed_attempts = 17 := by
    rw [hrun.1]; simp [GitHubApiHandler.init]
  refine ⟨fun h2 hh2 => check_low_block h2 env hlow hh2, hrun.2, h17, ?_, ?_⟩
  · exact (check_low_block _ env hlow h17).1
  · exact (check_low_block _ env hlow h17).2

/-- Witness for C3's amended claim at a concrete pool and environment. -/
theorem c3_cooldown_amended_witness :
    (∀ h2 : GitHubApiHandler, h2.failed_attempts = 17 →
      (check_and_switch_key h2 envLow).sleepSeconds = 3900 ∧
      (check_and_switch_key h2 envLow).handler.failed_attempts = 0) ∧
    (∀ s ∈ (checkRepeat envLow (GitHubApiHandler.init keysAB) 17).2, s = 0) ∧
    (checkRepeat envLow (GitHubApiHandler.init keysAB) 17).1.failed_attempts = 17 ∧
    (check_and_switch_key (checkRepeat envLow (GitHubApiHandler.init keysAB) 17).1 envLow).sleepSeconds = 3900 ∧
    (check_and_switch_key (checkRepeat envLow (GitHubApiHandler.init keysAB) 17).1 envLow).handler.failed_attempts = 0 :=
  c3_cooldown_amended envLow keysAB (by decide)

/-- C3's counterexample: from a fresh two-credential handler under constant
low quota, the 18th quota check (position 17 of the sleep list) is the call
that blocks; after 18 low-quota detections the counter is already 0, and
the next quota check -- the 19th, the one the claim says blocks -- sleeps 0
seconds. -/
theorem c3_cooldown_counterexample :
    (checkRepeat envLow (GitHubApiHandler.init keysAB) 19).2.get? 17 = some 3900 ∧
    (checkRepeat envLow (GitHubApiHandler.init keysAB) 18).1.failed_attempts = 0 ∧
    (checkRepeat envLow (GitHubApiHandler.init keysAB) 19).2.get? 18 = some 0 := by
  decide

/-! ## Handle normalization: claim C8 -/

theorem splitOnChar_ne_nil (c : Char) (l : List Char) : splitOnChar c l ≠ [] := by
  induction l with
  | nil => simp [splitOnChar]
  | cons x xs ih =>
    unfold splitOnChar
    split
    · simp
    · split
      · next heq => exact absurd heq ih
      · simp

theorem splitOnChar_length (c : Char) (l : List Char) :
    (splitOnChar c l).length = l.count c + 1 := by
  induction l with
  | nil => simp [splitOnChar]
  | cons x xs ih =>
    unfold splitOnChar
    split
    · next hxc =>
      subst hxc
      simp [List.count_cons, ih]
    · next hxc =>
      split
      · next heq => exact absurd heq (splitOnChar_ne_nil c xs)
      · next hh tt heq =>
        have hlen : (hh :: tt).length = xs.count c + 1 := by rw [← heq, ih]
        simp [List.count_cons, Ne.symm hxc] at hlen ⊢
        omega

theorem splitOnChar_of_not_mem (c : Char) (l : List Char) (h : c ∉ l) :
    splitOnChar c l = [l] := by
  induction l with
  | nil => rfl
  | cons x xs ih =>
    have hxc : ¬ x = c := fun he => h (he ▸ List.mem_cons_self x xs)
    have hxs : c ∉ xs := fun hm => h (List.mem_cons_of_mem x hm)
    unfold splitOnChar
    rw [if_neg hxc, ih hxs]

theorem getLastD_cons_of_ne_nil {α : Type} (t : List α) (ht : t ≠ []) (a b : α) :
    (a :: t).getLastD b = t.getLastD b := by
  cases t with
  | nil => exact absurd rfl ht
  | cons u t2 => rfl

theorem splitOnChar_getLastD (c : Char) (s : List Char) (hs : c ∉ s) :
    ∀ p : List Char, (splitOnChar c (p ++ c :: s)).getLastD [] = s := by
  intro p
  induction p with
  | nil =>
    show (splitOnChar c (c :: s)).getLastD [] = s
    unfold splitOnChar
    rw [if_pos rfl, splitOnChar_of_not_mem c s hs]
    rfl
  | cons x p ih =>
    show (splitOnChar c (x :: (p ++ c :: s))).getLastD [] = s
    unfold splitOnChar
    split
    · rw [getLastD_cons_of_ne_nil _ (splitOnChar_ne_nil c (p ++ c :: s))]
      exact ih
    · split
      · next heq => exact absurd heq (splitOnChar_ne_nil c (p ++ c :: s))
      · next hh tt heq =>
        have hlen := splitOnChar_length c (p ++ c :: s)
        rw [heq] at hlen
        have hcnt : 0 < (p ++ c :: s).count c := by
          apply List.count_pos_iff.mpr
          simp
        have htt : tt ≠ [] := by
          intro h0
          rw [h0] at hlen
          simp only [List.length_cons, List.length_nil] at hlen
          omega
        rw [getLastD_cons_of_ne_nil tt htt]
        have hrec := ih
        rw [heq, getLastD_cons_of_ne_nil tt htt] at hrec
        exact hrec

theorem isPrefixOf_append_self (a b : List Char) : a.isPrefixOf (a ++ b) = true := by
  induction a with
  | nil => simp
  | cons x xs ih => simp [List.isPrefixOf_cons₂, ih]

/-- C8 (corrected, amended claim): a reference that starts with the URL stem
is normalized to the text after its last slash -- which equals the stripped
remainder exactly when that remainder contains no slash -- and a reference
not starting with the stem passes through unchanged. -/
theorem c8_normalize_amended :
    (∀ s : List Char, '/' ∉ s → normalizeHandle (github_url_stem ++ s) = s) ∧
    (∀ r : List Char, github_url_stem.isPrefixOf r = false → normalizeHandle r = r) := by
  constructor
  · intro s hs
    unfold normalizeHandle
    rw [if_pos (isPrefixOf_append_self github_url_stem s)]
    have hsplit : github_url_stem ++ s = "https://github.com".toList ++ '/' :: s := rfl
    rw [hsplit, splitOnChar_getLastD '/' s hs "https://github.com".toList]
  · intro r hr
    unfold normalizeHandle
    rw [if_neg (by simp [hr])]

/-- C8's counterexample: the stem followed by a slashed remainder is not
normalized to that remainder (split('/')[-1] keeps only the last segment),
so normalizing (stem ++ s) does not in general return s. -/
theorem c8_normalize_counterexample :
    github_url_stem ++ "a/b".toList = "https://github.com/a/b".toList ∧
    normalizeHandle "https://github.com/a/b".toList = "b".toList ∧
    "b".toList ≠ "a/b".toList := by
  refine ⟨rfl, by decide, by decide⟩

/-! ## Transport use inside one resolve: claim C9 -/

/-- The quota check issues exactly the rate-limit request, through the retry
session. -/
theorem check_trace (h : GitHubApiHandler) (env : UserEnv) :
    (check_and_switch_key h env).trace =
      [{ url := rate_limit_url, retry := some requests_retry_session }] := by
  unfold check_and_switch_key get_remaining_requests
  dsimp only
  repeat' split
  all_goals rfl

/-- C9 (corrected, amended claim): of the requests one resolve issues, the
quota query and the profile query go through the retrying session, and the
fallback document query -- issued exactly when the profile query is a 200
with an empty or absent structured field -- is a bare requests.get with no
retry adapter. -/
theorem c9_transport_amended (h : GitHubApiHandler) (env : UserEnv) (ref : List Char) :
    (get_user_info_from_github_api h env ref).trace.map ApiRequest.retry =
      (if env.userStatus = 200 ∧ (env.userEmailField.getD []).isEmpty = true then
        [some requests_retry_session, some requests_retry_session, none]
      else
        [some requests_retry_session, some requests_retry_session]) := by
  by_cases hst : env.userStatus = 200
  · by_cases hem : (env.userEmailField.getD []).isEmpty = true
    · rw [if_pos ⟨hst, hem⟩]
      unfold get_user_info_from_github_api
      rw [if_neg (by simp [hst]), if_pos hem]
      simp [check_trace, get_email_from_readme]
    · rw [if_neg (fun hc => hem hc.2)]
      unfold get_user_info_from_github_api
      rw [if_neg (by simp [hst]), if_neg hem]
      simp [check_trace]
  · rw [if_neg (fun hc => hst hc.1)]
    unfold get_user_info_from_github_api
    rw [if_pos hst]
    simp [check_trace]

/-- C9's counterexample: in a resolve that takes the fallback, the third
request (the document query) carries no retry adapter, so not every request
of the resolve goes through the retrying transport. -/
theorem c9_transport_counterexample :
    ((get_user_info_from_github_api (GitHubApiHandler.init keysAB) envFallback
        "alice".toList).trace.map ApiRequest.retry) =
      [some requests_retry_session, some requests_retry_session, none] ∧
    ¬ (∀ r ∈ (get_user_info_from_github_api (GitHubApiHandler.init keysAB) envFallback
        "alice".toList).trace, r.retry = some requests_retry_session) := by
  constructor
  · decide
  · intro hall
    have hmem := hall { url := readme_url "alice".toList, retry := none } (by decide)
    exact Option.noConfusion hmem

/-! ## Directory lookup result: claim C1 -/

/-- C1 (confirmed): a 200 profile response with a non-empty structured email
field is returned directly with no document fetch; a non-200 profile
response yields an absent result with no document fetch; an empty or absent
field triggers exactly one document fetch whose outcome is the extraction
over the body on a 200 and absent otherwise; in particular the result is
absent when the document fetch is a non-200 or the body has no extractable
address. -/
theorem c1_directory_lookup (h : GitHubApiHandler) (env : UserEnv) (ref : List Char) :
    (∀ e, env.userStatus = 200 → env.userEmailField = some e → e ≠ [] →
      (get_user_info_from_github_api h env ref).email = some e ∧
      (get_user_info_from_github_api h env ref).readmeFetches = 0) ∧
    (env.userStatus ≠ 200 →
      (get_user_info_from_github_api h env ref).email = none ∧
      (get_user_info_from_github_api h env ref).readmeFetches = 0) ∧
    (env.userStatus = 200 → (env.userEmailField.getD []).isEmpty = true →
      (get_user_info_from_github_api h env ref).readmeFetches = 1 ∧
      (get_user_info_from_github_api h env ref).email =
        (if env.readmeStatus = 200 then extract_email env.readmeBody else none)) ∧
    (env.userStatus = 200 → (env.userEmailField.getD []).isEmpty = true →
      env.readmeStatus ≠ 200 → (get_user_info_from_github_api h env ref).email = none) ∧
    (env.userStatus = 200 → (env.userEmailField.getD []).isEmpty = true →
      env.readmeStatus = 200 → extract_email env.readmeBody = none →
      (get_user_info_from_github_api h env ref).email = none) := by
  refine ⟨?_, ?_, ?_, ?_, ?_⟩
  · intro e hst hf hne
    unfold get_user_info_from_github_api
    rw [if_neg (by simp [hst])]
    rw [if_neg (by simp [hf, hne])]
    rw [hf]
    exact ⟨rfl, rfl⟩
  · intro hst
    unfold get_user_info_from_github_api
    rw [if_pos hst]
    exact ⟨rfl, rfl⟩
  · intro hst hem
    unfold get_user_info_from_github_api
    rw [if_neg (by simp [hst]), if_pos hem]
    exact ⟨rfl, by simp [get_email_from_readme]⟩
  · intro hst hem hrd
    unfold get_user_info_from_github_api
    rw [if_neg (by simp [hst]), if_pos hem]
    simp [get_email_from_readme, if_neg hrd]
  · intro hst hem hrd hex
    unfold get_user_info_from_github_api
    rw [if_neg (by simp [hst]), if_pos hem]
    simp [get_email_from_readme, if_pos hrd, hex]

/-! ## Batch runner: claims C4, C5, C7 -/

/-- An exception from the lookup leaves the loop state untouched. -/
theorem processRecord_err (st : RunState) (idx : Nat) (row : InRow) (now : Nat) :
    processRecord st idx row .err now = st := by
  unfold processRecord
  split <;> rfl

/-- Splitting the iteration at any point. -/
theorem mainLoopFrom_append (pre : List (InRow × LookupOutcome × Nat)) :
    ∀ (st : RunState) (i : Nat) (post : List (InRow × LookupOutcome × Nat)),
      mainLoopFrom st i (pre ++ post) =
        mainLoopFrom (mainLoopFrom st i pre) (i + pre.length) post := by
  induction pre with
  | nil => intro st i post; simp [mainLoopFrom]
  | cons e rest ih =>
    intro st i post
    obtain ⟨row, oc, now⟩ := e
    show mainLoopFrom (processRecord st i row oc now) (i + 1) (rest ++ post) = _
    rw [ih]
    have harith : i + 1 + rest.length = i + ((row, oc, now) :: rest).length := by
      simp
      omega
    rw [harith]
    rfl

/-- Splitting the attempted-position list at any point. -/
theorem attemptedFrom_append (pre : List (InRow × LookupOutcome × Nat)) :
    ∀ (st : RunState) (i : Nat) (post : List (InRow × LookupOutcome × Nat)),
      attemptedFrom st i (pre ++ post) =
        attemptedFrom st i pre ++
          attemptedFrom (mainLoopFrom st i pre) (i + pre.length) post := by
  induction pre with
  | nil => intro st i post; simp [attemptedFrom, mainLoopFrom]
  | cons e rest ih =>
    intro st i post
    obtain ⟨row, oc, now⟩ := e
    show (if skipsRow st row then [] else [i]) ++
        attemptedFrom (processRecord st i row oc now) (i + 1) (rest ++ post) = _
    rw [ih]
    have harith : i + 1 + rest.length = i + ((row, oc, now) :: rest).length := by
      simp
      omega
    rw [harith]
    simp [attemptedFrom, mainLoopFrom]

/-- C7 (confirmed): an exception raised by the lookup for one record leaves
the state unchanged, and the loop goes on to process every later record
exactly as it would have: the run over a list with an erring record in the
middle equals the run over the remaining records from the same state, and
the attempted positions after the erring record are unchanged. -/
theorem c7_batch_resilience :
    (∀ (st : RunState) (idx : Nat) (row : InRow) (now : Nat),
      processRecord st idx row .err now = st) ∧
    (∀ (st : RunState) (i : Nat) (pre post : List (InRow × LookupOutcome × Nat))
        (row : InRow) (now : Nat),
      mainLoopFrom st i (pre ++ (row, .err, now) :: post) =
        mainLoopFrom (mainLoopFrom st i pre) (i + pre.length + 1) post) ∧
    (∀ (st : RunState) (i : Nat) (pre post : List (InRow × LookupOutcome × Nat))
        (row : InRow) (now : Nat),
      attemptedFrom st i (pre ++ (row, .err, now) :: post) =
        attemptedFrom st i pre ++
          (if skipsRow (mainLoopFrom st i pre) row then [] else [i + pre.length]) ++
          attemptedFrom (mainLoopFrom st i pre) (i + pre.length + 1) post) := by
  refine ⟨processRecord_err, ?_, ?_⟩
  · intro st i pre post row now
    rw [mainLoopFrom_append]
    show mainLoopFrom (processRecord _ _ _ _ _) _ _ = _
    rw [processRecord_err]
  · intro st i pre post row now
    rw [attemptedFrom_append]
    show _ ++ ((if skipsRow _ row then [] else [_]) ++
        attemptedFrom (processRecord _ _ _ _ _) _ _) = _
    rw [processRecord_err]
    simp [List.append_assoc]

/-- The buffer/store synchronisation invariant survives one iteration. -/
theorem inv_processRecord (st : RunState) (idx : Nat) (row : InRow)
    (oc : LookupOutcome) (now : Nat)
    (hinv : st.new_rows = [] → st.outputStore = st.output) :
    (processRecord st idx row oc now).new_rows = [] →
      (processRecord st idx row oc now).outputStore =
        (processRecord st idx row oc now).output := by
  unfold processRecord
  split
  · exact hinv
  · cases oc with
    | err => exact hinv
    | ok em =>
      dsimp only
      split
      · -- truthy email: the buffer is non-empty going into the checkpoint test
        split
        · -- checkpoint fires: saveProgress flushes the non-empty buffer
          unfold saveProgress
          rw [if_neg (by simp)]
          intro _
          rfl
        · -- no checkpoint: buffer still non-empty, hypothesis vacuous
          intro hemp
          simp at hemp
      · -- falsy email: the state is st, possibly checkpointed
        split
        · unfold saveProgress
          split
          · next hemp2 =>
            intro _
            simpa using hinv (by simpa using hemp2)
          · intro _
            rfl
        · exact hinv

/-- The buffer/store synchronisation invariant survives the whole loop. -/
theorem inv_mainLoopFrom (pairs : List (InRow × LookupOutcome × Nat)) :
    ∀ (st : RunState) (i : Nat),
      (st.new_rows = [] → st.outputStore = st.output) →
      ((mainLoopFrom st i pairs).new_rows = [] →
        (mainLoopFrom st i pairs).outputStore = (mainLoopFrom st i pairs).output) := by
  induction pairs with
  | nil => intro st i hinv; exact hinv
  | cons e rest ih =>
    intro st i hinv
    obtain ⟨row, oc, now⟩ := e
    exact ih _ _ (inv_processRecord st i row oc now hinv)

/-- C4 (confirmed): (a) in an iteration whose lookup returned (did not
raise), when more than 30 minutes have passed since the last save the
buffered output rows (and the row this iteration may have added) are
flushed into the output frame and store, the input statuses are written to
the input store, the timer is reset and the buffer cleared; (b) after the
loop a final save always leaves the input store holding the loop's final
statuses and the output store holding every buffered row. -/
theorem c4_checkpoint_policy :
    (∀ (st : RunState) (idx : Nat) (row : InRow) (em : Option (List Char)) (now : Nat),
      skipsRow st row = false →
      1800 < now - st.last_save_time →
      (st.new_rows = [] → st.outputStore = st.output) →
      (processRecord st idx row (.ok em) now).new_rows = [] ∧
      (processRecord st idx row (.ok em) now).last_save_time = now ∧
      (processRecord st idx row (.ok em) now).inputStore =
        (processRecord st idx row (.ok em) now).input ∧
      (processRecord st idx row (.ok em) now).outputStore =
        (processRecord st idx row (.ok em) now).output ∧
      (processRecord st idx row (.ok em) now).output =
        st.output ++ st.new_rows ++
          (if truthyEmail em then [rowToOut row (em.getD [])] else [])) ∧
    (∀ (input0 : List InRow) (output0 : List OutRow) (t0 : Nat)
        (oracle : List (LookupOutcome × Nat)),
      (runMain input0 output0 t0 oracle).inputStore =
        (mainLoopFrom (initState input0 output0 t0) 0
          (runPairs input0 oracle)).input ∧
      (runMain input0 output0 t0 oracle).output =
        (mainLoopFrom (initState input0 output0 t0) 0
          (runPairs input0 oracle)).output ++
        (mainLoopFrom (initState input0 output0 t0) 0
          (runPairs input0 oracle)).new_rows ∧
      (runMain input0 output0 t0 oracle).outputStore =
        (runMain input0 output0 t0 oracle).output) := by
  constructor
  · intro st idx row em now hskip htime hinv
    by_cases htr : truthyEmail em = true
    · simp [processRecord, saveProgress, hskip, htr, htime]
    · by_cases hnil : st.new_rows = []
      · have hOS := hinv hnil
        simp [processRecord, saveProgress, hskip, htr, htime, hnil, hOS]
      · simp [processRecord, saveProgress, hskip, htr, htime, hnil]
  · intro input0 output0 t0 oracle
    unfold runMain finalSave
    have hinv := inv_mainLoopFrom
      (runPairs input0 oracle)
      (initState input0 output0 t0) 0 (fun _ => rfl)
    by_cases hemp : (mainLoopFrom (initState input0 output0 t0) 0
        (runPairs input0 oracle)).new_rows.isEmpty = true
    · rw [if_pos hemp]
      have hnil := (by simpa using hemp :
        (mainLoopFrom (initState input0 output0 t0) 0
          (runPairs input0 oracle)).new_rows = [])
      refine ⟨rfl, by simp [hnil], ?_⟩
      simpa using hinv hnil
    · rw [if_neg hemp]
      exact ⟨rfl, rfl, rfl⟩

/-- A periodic save moves rows between buffer and frame but neither creates
nor drops them, and does not touch the processed set. -/
theorem saveProgress_pair (st : RunState) (now : Nat) :
    (saveProgress st now).output ++ (saveProgress st now).new_rows =
      st.output ++ st.new_rows ∧
    (saveProgress st now).processed = st.processed := by
  unfold saveProgress
  split
  · next hemp =>
    have hnil : st.new_rows = [] := by simpa using hemp
    simp [hnil]
  · simp

/-- The conditional checkpoint leaves the frame-plus-buffer rows and the
processed set as they were. -/
theorem checkpoint_pair (st1 : RunState) (now : Nat) :
    (if 1800 < now - st1.last_save_time then saveProgress st1 now else st1).output ++
      (if 1800 < now - st1.last_save_time then saveProgress st1 now else st1).new_rows =
      st1.output ++ st1.new_rows ∧
    (if 1800 < now - st1.last_save_time then saveProgress st1 now else st1).processed =
      st1.processed := by
  split
  · exact saveProgress_pair st1 now
  · exact ⟨rfl, rfl⟩

/-- One iteration extends the frame-plus-buffer rows and the processed set
by exactly its stepApp. -/
theorem step_cases (st : RunState) (idx : Nat) (row : InRow) (oc : LookupOutcome)
    (now : Nat) :
    (processRecord st idx row oc now).output ++ (processRecord st idx row oc now).new_rows =
      st.output ++ st.new_rows ++ stepApp st row oc ∧
    (processRecord st idx row oc now).processed =
      st.processed ++ (stepApp st row oc).map OutRow.profile_url := by
  unfold processRecord stepApp
  split
  · simp
  · cases oc with
    | err => simp
    | ok em =>
      dsimp only
      rw [(checkpoint_pair _ now).1, (checkpoint_pair _ now).2]
      by_cases htr : truthyEmail em = true
      · rw [if_pos htr]
        constructor <;> simp [htr, rowToOut]
      · rw [if_neg htr]
        have hf : truthyEmail em = false := by
          revert htr
          cases truthyEmail em <;> simp
        constructor <;> simp [hf]

/-- The rows an iteration adds carry urls that were not yet processed. -/
theorem stepApp_fresh (st : RunState) (row : InRow) (oc : LookupOutcome) :
    ∀ o ∈ stepApp st row oc, o.profile_url ∉ st.processed := by
  intro o ho hmem
  unfold stepApp at ho
  by_cases hsk : skipsRow st row = true
  · rw [if_pos hsk] at ho
    simp at ho
  · rw [if_neg hsk] at ho
    cases oc with
    | err => simp at ho
    | ok em =>
      dsimp only at ho
      by_cases htr : truthyEmail em = true
      · rw [if_pos htr] at ho
        simp at ho
        subst ho
        apply hsk
        simp [skipsRow]
        exact Or.inr (by simpa [rowToOut] using hmem)
      · rw [if_neg htr] at ho
        simp at ho

/-- The processed set only grows across one iteration. -/
theorem processed_mono (st : RunState) (idx : Nat) (row : InRow) (oc : LookupOutcome)
    (now : Nat) : ∀ x ∈ st.processed, x ∈ (processRecord st idx row oc now).processed := by
  intro x hx
  rw [(step_cases st idx row oc now).2]
  exact List.mem_append_left _ hx

/-- Across a whole run of the loop, the frame-plus-buffer rows grow by a
batch of rows whose urls are fresh relative to the entry state and pairwise
distinct, and the processed set grows by exactly those urls. -/
theorem loop_cases (pairs : List (InRow × LookupOutcome × Nat)) :
    ∀ (st : RunState) (i : Nat), ∃ app : List OutRow,
      (mainLoopFrom st i pairs).output ++ (mainLoopFrom st i pairs).new_rows =
        st.output ++ st.new_rows ++ app ∧
      (mainLoopFrom st i pairs).processed = st.processed ++ app.map OutRow.profile_url ∧
      (∀ o ∈ app, o.profile_url ∉ st.processed) ∧
      (app.map OutRow.profile_url).Nodup := by
  induction pairs with
  | nil => exact fun st i => ⟨[], by simp [mainLoopFrom], by simp [mainLoopFrom], by simp, by simp⟩
  | cons e rest ih =>
    intro st i
    obtain ⟨row, oc, now⟩ := e
    obtain ⟨app2, he2, hp2, hf2, hn2⟩ := ih (processRecord st i row oc now) (i + 1)
    have hstep : mainLoopFrom st i ((row, oc, now) :: rest) =
        mainLoopFrom (processRecord st i row oc now) (i + 1) rest := rfl
    refine ⟨stepApp st row oc ++ app2, ?_, ?_, ?_, ?_⟩
    · rw [hstep, he2, (step_cases st i row oc now).1]
      simp [List.append_assoc]
    · rw [hstep, hp2, (step_cases st i row oc now).2]
      simp [List.append_assoc]
    · intro o ho
      rcases List.mem_append.mp ho with hcase | hcase
      · exact stepApp_fresh st row oc o hcase
      · intro hmem
        exact hf2 o hcase (processed_mono st i row oc now _ hmem)
    · rw [List.map_append]
      refine List.Nodup.append ?_ hn2 ?_
      · unfold stepApp
        split
        · simp
        · cases oc with
          | err => simp
          | ok em =>
            dsimp only
            split <;> simp
      · intro x hx1 hx2
        obtain ⟨o1, ho1, hxo1⟩ := List.mem_map.mp hx1
        obtain ⟨o2, ho2, hxo2⟩ := List.mem_map.mp hx2
        apply hf2 o2 ho2
        rw [(step_cases st i row oc now).2]
        apply List.mem_append_right
        rw [hxo2, ← hxo1]
        exact List.mem_map_of_mem OutRow.profile_url ho1

/-- A position the loop hands to the lookup belongs to a record that is not
marked Done and whose url is not in the processed set of the state the run
started from. -/
theorem attempted_means_eligible (pairs : List (InRow × LookupOutcome × Nat)) :
    ∀ (st : RunState) (i k : Nat), k ∈ attemptedFrom st i pairs →
      i ≤ k ∧ ∀ row oc now, pairs.get? (k - i) = some (row, oc, now) →
        row.status ≠ some doneMark ∧ row.profile_url ∉ st.processed := by
  induction pairs with
  | nil => intro st i k hk; simp [attemptedFrom] at hk
  | cons e rest ih =>
    intro st i k hk
    obtain ⟨row0, oc0, now0⟩ := e
    have hk2 : k ∈ (if skipsRow st row0 then [] else [i]) ++
        attemptedFrom (processRecord st i row0 oc0 now0) (i + 1) rest := hk
    rw [List.mem_append] at hk2
    rcases hk2 with hcase | hcase
    · by_cases hsk : skipsRow st row0 = true
      · rw [if_pos hsk] at hcase
        simp at hcase
      · rw [if_neg hsk] at hcase
        simp at hcase
        subst hcase
        refine ⟨le_refl k, ?_⟩
        intro row oc now hget
        simp at hget
        obtain ⟨hrow, _, _⟩ := hget
        subst hrow
        simp [skipsRow] at hsk
        exact ⟨by simpa using hsk.1, by simpa using hsk.2⟩
    · obtain ⟨hik, hmain⟩ := ih (processRecord st i row0 oc0 now0) (i + 1) k hcase
      refine ⟨by omega, ?_⟩
      intro row oc now hget
      have hki : k - i = (k - (i + 1)) + 1 := by omega
      rw [hki] at hget
      obtain ⟨hst, hmem⟩ := hmain row oc now (by simpa using hget)
      refine ⟨hst, fun hx => hmem (processed_mono st i row0 oc0 now0 _ hx)⟩

/-- C5 (corrected, amended claim): a record whose lookup the loop actually
performs is never already Done and its url is not in the set built from the
startup output store; every row the run appends beyond the startup output
carries a url outside that startup set; and, when the startup output's urls
are pairwise distinct, so are the final output's (no duplicate profile
references). The skip test itself reads the current processed set, which is
the startup set grown with urls resolved earlier in the same run. -/
theorem c5_idempotent_restart (input0 : List InRow) (output0 : List OutRow) (t0 : Nat)
    (oracle : List (LookupOutcome × Nat))
    (hnd : (output0.map OutRow.profile_url).Nodup) :
    (∀ k, k ∈ attemptedFrom (initState input0 output0 t0) 0 (runPairs input0 oracle) →
      ∀ row oc now, (runPairs input0 oracle).get? k = some (row, oc, now) →
        row.status ≠ some doneMark ∧
        row.profile_url ∉ output0.map OutRow.profile_url) ∧
    (∃ app, (runMain input0 output0 t0 oracle).output = output0 ++ app ∧
      ∀ o ∈ app, o.profile_url ∉ output0.map OutRow.profile_url) ∧
    ((runMain input0 output0 t0 oracle).output.map OutRow.profile_url).Nodup := by
  obtain ⟨app, happ, hproc, hfresh, hndapp⟩ :=
    loop_cases (runPairs input0 oracle) (initState input0 output0 t0) 0
  have hout : (runMain input0 output0 t0 oracle).output = output0 ++ app := by
    have hfin : (runMain input0 output0 t0 oracle).output =
        (mainLoopFrom (initState input0 output0 t0) 0 (runPairs input0 oracle)).output ++
        (mainLoopFrom (initState input0 output0 t0) 0 (runPairs input0 oracle)).new_rows := by
      unfold runMain finalSave
      split
      · next hemp =>
        have hnil : (mainLoopFrom (initState input0 output0 t0) 0
            (runPairs input0 oracle)).new_rows = [] := by simpa using hemp
        simp [hnil]
      · rfl
    rw [hfin, happ]
    simp [initState]
  refine ⟨?_, ⟨app, hout, ?_⟩, ?_⟩
  · intro k hk row oc now hget
    obtain ⟨_, hmain⟩ :=
      attempted_means_eligible (runPairs input0 oracle) (initState input0 output0 t0) 0 k hk
    have := hmain row oc now (by simpa using hget)
    exact ⟨this.1, by simpa [initState] using this.2⟩
  · intro o ho
    have := hfresh o ho
    simpa [initState] using this
  · rw [hout, List.map_append]
    refine List.Nodup.append hnd hndapp ?_
    intro x hx1 hx2
    obtain ⟨o2, ho2, hxo2⟩ := List.mem_map.mp hx2
    apply hfresh o2 ho2
    show o2.profile_url ∈ (initState input0 output0 t0).processed
    rw [hxo2]
    simpa [initState] using hx1

/-- C5's counterexample: with a duplicate profile url in the input and an
empty startup output store, the second record is skipped (only position 0
is attempted) although its status is not Done and its url is absent from
the startup set -- the skip test uses the processed set grown during the
run, not only the set built at startup. -/
theorem c5_idempotent_counterexample :
    attemptedFrom (initState [rowP1, rowP2] [] 0) 0 (runPairs [rowP1, rowP2] cexOracle) = [0] ∧
    rowP2.status ≠ some doneMark ∧
    rowP2.profile_url ∉ (([] : List OutRow)).map OutRow.profile_url := by
  refine ⟨by decide, by decide, by decide⟩

/-- Witness for C5 at a concrete run (the startup store has one row, whose
record is skipped on restart). -/
theorem c5_idempotent_restart_witness :
    (∀ k, k ∈ attemptedFrom (initState [rowP1] [rowToOut rowP1 ['e']] 0)
        0 (runPairs [rowP1] cexOracle) →
      ∀ row oc now, (runPairs [rowP1] cexOracle).get? k = some (row, oc, now) →
        row.status ≠ some doneMark ∧
        row.profile_url ∉ [rowToOut rowP1 ['e']].map OutRow.profile_url) ∧
    (∃ app, (runMain [rowP1] [rowToOut rowP1 ['e']] 0 cexOracle).output =
        [rowToOut rowP1 ['e']] ++ app ∧
      ∀ o ∈ app, o.profile_url ∉ [rowToOut rowP1 ['e']].map OutRow.profile_url) ∧
    ((runMain [rowP1] [rowToOut rowP1 ['e']] 0 cexOracle).output.map
        OutRow.profile_url).Nodup :=
  c5_idempotent_restart [rowP1] [rowToOut rowP1 ['e']] 0 cexOracle (by decide)

/-! ## List facts used by the matcher proofs -/

theorem length_takeWhile_le_len (p : Char → Bool) (l : List Char) :
    (l.takeWhile p).length ≤ l.length := by
  have h := congrArg List.length (List.takeWhile_append_dropWhile p l)
  rw [List.length_append] at h
  omega

theorem take_of_le_runLen (p : Char → Bool) (l : List Char) (i : Nat)
    (h : i ≤ (l.takeWhile p).length) : l.take i = (l.takeWhile p).take i := by
  conv_lhs => rw [← List.takeWhile_append_dropWhile p l]
  rw [List.take_append_eq_append_take, Nat.sub_eq_zero_of_le h]
  simp

theorem mem_take_runLen (p : Char → Bool) (l : List Char) (i : Nat)
    (h : i ≤ (l.takeWhile p).length) : ∀ c ∈ l.take i, p c = true := by
  intro c hc
  rw [take_of_le_runLen p l i h] at hc
  exact List.mem_takeWhile_imp (List.take_subset i _ hc)

theorem runLen_ge_of_sat (p : Char → Bool) (l r : List Char)
    (h : ∀ c ∈ l, p c = true) : l.length ≤ ((l ++ r).takeWhile p).length := by
  rw [List.takeWhile_append_of_pos h, List.length_append]
  omega

theorem takeWhile_forced (p : Char → Bool) (l r : List Char) (c0 : Char)
    (hl : ∀ c ∈ l, p c = true) (hc : p c0 = false) :
    (l ++ c0 :: r).takeWhile p = l ∧ (l ++ c0 :: r).dropWhile p = c0 :: r := by
  constructor
  · rw [List.takeWhile_append_of_pos hl, List.takeWhile_cons_of_neg (by simp [hc])]
    simp
  · rw [List.dropWhile_append_of_pos hl, List.dropWhile_cons_of_neg (by simp [hc])]

theorem cons_decomp_of_get? (v : List Char) (i : Nat) (c : Char)
    (hc : v.get? i = some c) : v = v.take i ++ c :: v.drop (i + 1) := by
  obtain ⟨hlt, hget⟩ := List.get?_eq_some.mp hc
  conv_lhs => rw [← List.take_append_drop i v]
  rw [List.drop_eq_get_cons hlt, hget]

theorem head?_append_ne_nil (l r : List Char) (h : l ≠ []) :
    (l ++ r).head? = l.head? := by
  cases l with
  | nil => exact absurd rfl h
  | cons x xs => rfl

theorem getLast?_take_eq_get? (u : List Char) (j : Nat) (h1 : 1 ≤ j)
    (h2 : j ≤ u.length) : (u.take j).getLast? = u.get? (j - 1) := by
  rw [List.getLast?_eq_get?, List.length_take, Nat.min_eq_left h2,
    List.get?_take (by omega)]

theorem get?_append_left_len (l r : List Char) (n : Nat) (h : n < l.length) :
    (l ++ r).get? n = l.get? n := List.get?_append h

theorem get?_append_at_len (l r : List Char) : (l ++ r).get? l.length = r.head? := by
  rw [List.get?_append_right (le_refl _), Nat.sub_self, List.get?_zero]

theorem getLast?_eq_get?_pred (l : List Char) (h : l ≠ []) :
    l.getLast? = l.get? (l.length - 1) := List.getLast?_eq_get? l

/-! ## Soundness, completeness and maximality of the backtracking searches -/

theorem tldTry_red (u : List Char) (n : Nat) :
    tldTry u (n + 2) =
      if boundary (u.get? (n + 1)) (u.get? (n + 2)) then some (n + 2)
      else tldTry u (n + 1) := rfl

theorem tldTry_sound (u : List Char) : ∀ n j, tldTry u n = some j →
    2 ≤ j ∧ j ≤ n ∧ boundary (u.get? (j - 1)) (u.get? j) = true := by
  intro n
  induction n with
  | zero => intro j h; exact absurd h (by simp [tldTry])
  | succ n ih =>
    intro j h
    cases n with
    | zero => exact absurd h (by simp [tldTry])
    | succ n2 =>
      rw [tldTry_red] at h
      split at h
      · next hb =>
        cases h
        exact ⟨by omega, le_refl _, by simpa using hb⟩
      · obtain ⟨h2, hn, hb⟩ := ih j h
        exact ⟨h2, by omega, hb⟩

theorem tldTry_complete (u : List Char) : ∀ n j, 2 ≤ j → j ≤ n →
    boundary (u.get? (j - 1)) (u.get? j) = true → tldTry u n ≠ none := by
  intro n
  induction n with
  | zero => intro j h2 hn _; omega
  | succ n ih =>
    intro j h2 hjn hb
    cases n with
    | zero => omega
    | succ n2 =>
      rw [tldTry_red]
      split
      · simp
      · next hbf =>
        have hj : j ≤ n2 + 1 := by
          by_contra hcon
          have hj2 : j = n2 + 2 := by omega
          subst hj2
          exact hbf (by simpa using hb)
        exact ih j h2 hj hb

theorem tldTry_max (u : List Char) : ∀ n j, tldTry u n = some j →
    ∀ j2, j < j2 → j2 ≤ n → boundary (u.get? (j2 - 1)) (u.get? j2) = false := by
  intro n
  induction n with
  | zero => intro j h; exact absurd h (by simp [tldTry])
  | succ n ih =>
    intro j h
    cases n with
    | zero => exact absurd h (by simp [tldTry])
    | succ n2 =>
      rw [tldTry_red] at h
      split at h
      · cases h
        intro j2 hlt hle
        omega
      · next hbf =>
        intro j2 hlt hle
        rcases Nat.eq_or_lt_of_le hle with heq | hlt2
        · subst heq
          simp only [Nat.add_sub_cancel]
          exact Bool.not_eq_true _ ▸ (by simpa using hbf)
        · exact ih j h j2 hlt (by omega)

theorem tldSearch_sound (u : List Char) (j : Nat) (h : tldSearch u = some j) :
    2 ≤ j ∧ j ≤ (u.takeWhile tldChar).length ∧
      boundary (u.get? (j - 1)) (u.get? j) = true :=
  tldTry_sound u _ j h

theorem tldSearch_complete (u : List Char) (j : Nat) (h2 : 2 ≤ j)
    (hrun : j ≤ (u.takeWhile tldChar).length)
    (hb : boundary (u.get? (j - 1)) (u.get? j) = true) : tldSearch u ≠ none :=
  tldTry_complete u _ j h2 hrun hb

theorem tldSearch_max (u : List Char) (j : Nat) (h : tldSearch u = some j)
    (j2 : Nat) (hlt : j < j2) (hrun : j2 ≤ (u.takeWhile tldChar).length) :
    boundary (u.get? (j2 - 1)) (u.get? j2) = false :=
  tldTry_max u _ j h j2 hlt hrun

theorem dotSearch_red (v : List Char) (n : Nat) :
    dotSearch v (n + 1) =
      if v.get? (n + 1) = some '.' then
        match tldSearch (v.drop (n + 2)) with
        | some j => some (n + 1, j)
        | none => dotSearch v n
      else dotSearch v n := rfl

theorem dotSearch_sound (v : List Char) : ∀ n i j, dotSearch v n = some (i, j) →
    1 ≤ i ∧ i ≤ n ∧ v.get? i = some '.' ∧ tldSearch (v.drop (i + 1)) = some j := by
  intro n
  induction n with
  | zero => intro i j h; exact absurd h (by simp [dotSearch])
  | succ n ih =>
    intro i j h
    rw [dotSearch_red] at h
    split at h
    · next hdot =>
      cases hts : tldSearch (v.drop (n + 2)) with
      | some j2 =>
        rw [hts] at h
        simp at h
        obtain ⟨hi, hj⟩ := h
        subst hi
        subst hj
        exact ⟨by omega, le_refl _, hdot, hts⟩
      | none =>
        rw [hts] at h
        obtain ⟨h1, h2, h3, h4⟩ := ih i j h
        exact ⟨h1, by omega, h3, h4⟩
    · obtain ⟨h1, h2, h3, h4⟩ := ih i j h
      exact ⟨h1, by omega, h3, h4⟩

theorem dotSearch_complete (v : List Char) : ∀ n i, 1 ≤ i → i ≤ n →
    v.get? i = some '.' → tldSearch (v.drop (i + 1)) ≠ none →
    dotSearch v n ≠ none := by
  intro n
  induction n with
  | zero => intro i h1 hn _ _; omega
  | succ n ih =>
    intro i h1 hin hdot hts
    rw [dotSearch_red]
    split
    · next hd2 =>
      cases hts2 : tldSearch (v.drop (n + 2)) with
      | some j2 => simp
      | none =>
        show dotSearch v n ≠ none
        have hi : i ≤ n := by
          by_contra hcon
          have : i = n + 1 := by omega
          subst this
          exact hts hts2
        exact ih i h1 hi hdot hts
    · next hd2 =>
      have hi : i ≤ n := by
        by_contra hcon
        have : i = n + 1 := by omega
        subst this
        exact hd2 hdot
      exact ih i h1 hi hdot hts

theorem dotSearch_max (v : List Char) : ∀ n i j, dotSearch v n = some (i, j) →
    ∀ i2, i < i2 → i2 ≤ n → v.get? i2 = some '.' →
    tldSearch (v.drop (i2 + 1)) = none := by
  intro n
  induction n with
  | zero => intro i j h; exact absurd h (by simp [dotSearch])
  | succ n ih =>
    intro i j h
    rw [dotSearch_red] at h
    split at h
    · next hdot =>
      cases hts : tldSearch (v.drop (n + 2)) with
      | some j2 =>
        rw [hts] at h
        simp at h
        obtain ⟨hi, _⟩ := h
        subst hi
        intro i2 hlt hle
        omega
      | none =>
        rw [hts] at h
        intro i2 hlt hle hdot2
        rcases Nat.eq_or_lt_of_le hle with heq | hlt2
        · subst heq
          simpa using hts
        · exact ih i j h i2 hlt (by omega) hdot2
    · next hdot =>
      intro i2 hlt hle hdot2
      rcases Nat.eq_or_lt_of_le hle with heq | hlt2
      · subst heq
        exact absurd hdot2 hdot
      · exact ih i j h i2 hlt (by omega) hdot2

/-! ## The anchored attempt against the declarative match -/

/-- Everything a declarative match forces about the text: the local run is
exactly the takeWhile run, the at sign follows it, the dot and final
segment sit at computable offsets of the tail, and both flanking
boundaries hold. -/
theorem matchFrom_data (prev : Option Char) (s m : List Char) (h : MatchFrom prev s m) :
    ∃ l d tl rest,
      m = l ++ '@' :: (d ++ '.' :: tl) ∧
      l ≠ [] ∧
      (∀ c ∈ l, localChar c = true) ∧
      (∀ c ∈ d, domainChar c = true) ∧
      (∀ c ∈ tl, tldChar c = true) ∧
      s.takeWhile localChar = l ∧
      s.dropWhile localChar = '@' :: (d ++ '.' :: (tl ++ rest)) ∧
      1 ≤ d.length ∧
      d.length ≤ ((d ++ '.' :: (tl ++ rest)).takeWhile domainChar).length ∧
      (d ++ '.' :: (tl ++ rest)).get? d.length = some '.' ∧
      (d ++ '.' :: (tl ++ rest)).drop (d.length + 1) = tl ++ rest ∧
      2 ≤ tl.length ∧
      tl.length ≤ ((tl ++ rest).takeWhile tldChar).length ∧
      boundary ((tl ++ rest).get? (tl.length - 1)) ((tl ++ rest).get? tl.length) = true ∧
      boundary prev s.head? = true := by
  obtain ⟨l, d, tl, rest, hm, hs, hl, hlc, hd, hdc, htl, htlc, hb1, hb2⟩ := h
  have hz : s = l ++ '@' :: (d ++ '.' :: (tl ++ rest)) := by
    rw [hs, hm]
    simp [List.append_assoc]
  have htlne : tl ≠ [] := List.ne_nil_of_length_pos (by omega)
  refine ⟨l, d, tl, rest, hm, hl, hlc, hdc, htlc, ?_, ?_, ?_, ?_, ?_, ?_, htl, ?_, ?_, ?_⟩
  · rw [hz]
    exact (takeWhile_forced localChar l _ '@' hlc (by decide)).1
  · rw [hz]
    exact (takeWhile_forced localChar l _ '@' hlc (by decide)).2
  · have := List.length_pos.mpr hd
    omega
  · exact runLen_ge_of_sat domainChar d ('.' :: (tl ++ rest)) hdc
  · rw [get?_append_at_len]
    rfl
  · have hre : d ++ '.' :: (tl ++ rest) = (d ++ ['.']) ++ (tl ++ rest) := by simp
    have hlen : d.length + 1 = (d ++ ['.']).length := by simp
    rw [hre, hlen]
    exact List.drop_left _ _
  · exact runLen_ge_of_sat tldChar tl rest htlc
  · have e1 : (tl ++ rest).get? (tl.length - 1) = tl.getLast? := by
      rw [get?_append_left_len tl rest _ (by omega)]
      rw [getLast?_eq_get?_pred tl htlne]
    have e2 : (tl ++ rest).get? tl.length = rest.head? := get?_append_at_len tl rest
    rw [e1, e2]
    exact hb2
  · have hsm : s.head? = l.head? := by
      rw [hz]
      exact head?_append_ne_nil l _ hl
    rw [hm, head?_append_ne_nil l _ hl] at hb1
    rw [hsm]
    exact hb1

/-- The branch equation of the anchored attempt once the text has the
shape local-run, at sign, tail. -/
theorem matchAt_eq_of (prev : Option Char) (s v : List Char)
    (hb : boundary prev s.head? = true) (hne : s.takeWhile localChar ≠ [])
    (hdw : s.dropWhile localChar = '@' :: v) :
    matchAt prev s =
      match dotSearch v ((v.takeWhile domainChar).length) with
      | some (i, j) =>
        some (s.takeWhile localChar ++ '@' :: (v.take i ++ '.' :: (v.drop (i + 1)).take j))
      | none => none := by
  unfold matchAt
  rw [if_neg (by simp [hb]), if_neg hne, hdw]
  rfl

/-- Soundness: a successful anchored attempt is a declarative match. -/
theorem matchAt_sound (prev : Option Char) (s m : List Char)
    (h : matchAt prev s = some m) : MatchFrom prev s m := by
  unfold matchAt at h
  by_cases hb0 : boundary prev s.head? = false
  · rw [if_pos hb0] at h
    exact absurd h (by simp)
  · rw [if_neg hb0] at h
    have hb : boundary prev s.head? = true := by
      revert hb0
      cases boundary prev s.head? <;> simp
    by_cases hl0 : s.takeWhile localChar = []
    · rw [if_pos hl0] at h
      exact absurd h (by simp)
    · rw [if_neg hl0] at h
      split at h
      · next v heq =>
        split at h
        · next i j hds =>
          cases h
          obtain ⟨hi1, hi0, hdot, hts⟩ := dotSearch_sound v _ i j hds
          obtain ⟨hj2, hjrun, hjb⟩ := tldSearch_sound _ j hts
          have hiv : i ≤ v.length := le_trans hi0 (length_takeWhile_le_len _ _)
          have hju : j ≤ (v.drop (i + 1)).length :=
            le_trans hjrun (length_takeWhile_le_len _ _)
          refine ⟨s.takeWhile localChar, v.take i, (v.drop (i + 1)).take j,
            (v.drop (i + 1)).drop j, rfl, ?_, hl0,
            fun c hc => List.mem_takeWhile_imp hc, ?_,
            mem_take_runLen _ _ _ hi0, ?_, mem_take_runLen _ _ _ hjrun, ?_, ?_⟩
          · -- s = m ++ rest
            conv_lhs => rw [← List.takeWhile_append_dropWhile localChar s, heq,
              cons_decomp_of_get? v i '.' hdot]
            simp [List.append_assoc]
          · -- d nonempty
            apply List.ne_nil_of_length_pos
            rw [List.length_take, Nat.min_eq_left hiv]
            omega
          · -- final segment length
            rw [List.length_take, Nat.min_eq_left hju]
            exact hj2
          · -- start boundary
            have e : s.head? = (s.takeWhile localChar).head? := by
              conv_lhs => rw [← List.takeWhile_append_dropWhile localChar s]
              exact head?_append_ne_nil _ _ hl0
            rw [head?_append_ne_nil _ _ hl0, ← e]
            exact hb
          · -- end boundary
            rw [getLast?_take_eq_get? _ j (by omega) hju]
            have e2 : ((v.drop (i + 1)).drop j).head? = (v.drop (i + 1)).get? j := by
              rw [List.head?_drop, ← List.get?_eq_getElem?]
            rw [e2]
            exact hjb
        · next hds =>
          exact absurd h (by simp)
      · next heq =>
        exact absurd h (by simp)

/-- Completeness: where a declarative match exists the anchored attempt
succeeds. -/
theorem matchAt_complete (prev : Option Char) (s m : List Char)
    (h : MatchFrom prev s m) : matchAt prev s ≠ none := by
  obtain ⟨l, d, tl, rest, hm, hlne, hlc, hdc, htlc, htw, hdw, hd1, hdrun, hdot,
    hdrop, htl2, htlrun, htlb, hbs⟩ := matchFrom_data prev s m h
  rw [matchAt_eq_of prev s _ hbs (by rw [htw]; exact hlne) hdw]
  have hdsne : dotSearch (d ++ '.' :: (tl ++ rest))
      (((d ++ '.' :: (tl ++ rest)).takeWhile domainChar).length) ≠ none := by
    apply dotSearch_complete _ _ d.length hd1 hdrun hdot
    rw [hdrop]
    exact tldSearch_complete _ tl.length htl2 htlrun htlb
  cases hds : dotSearch (d ++ '.' :: (tl ++ rest))
      (((d ++ '.' :: (tl ++ rest)).takeWhile domainChar).length) with
  | none => exact absurd hds hdsne
  | some ij =>
    obtain ⟨i, j⟩ := ij
    simp

/-- Maximality: the anchored attempt returns the longest declarative match
at its position. -/
theorem matchAt_max (prev : Option Char) (s m : List Char)
    (h : matchAt prev s = some m) :
    ∀ m2, MatchFrom prev s m2 → m2.length ≤ m.length := by
  intro m2 h2
  obtain ⟨l2, d2, tl2, rest2, hm2, hl2ne, hl2c, hd2c, htl2c, htw2, hdw2, hd21,
    hd2run, hdot2, hdrop2, htl22, htl2run, htl2b, hbs2⟩ := matchFrom_data prev s m2 h2
  rw [matchAt_eq_of prev s _ hbs2 (by rw [htw2]; exact hl2ne) hdw2] at h
  cases hds : dotSearch (d2 ++ '.' :: (tl2 ++ rest2))
      (((d2 ++ '.' :: (tl2 ++ rest2)).takeWhile domainChar).length) with
  | none =>
    rw [hds] at h
    exact absurd h (by simp)
  | some ij =>
    obtain ⟨i, j⟩ := ij
    rw [hds] at h
    simp only [Option.some_inj] at h
    obtain ⟨hi1, hi0, hdot, hts⟩ := dotSearch_sound _ _ i j hds
    obtain ⟨hj2, hjrun, hjb⟩ := tldSearch_sound _ j hts
    have hiv : i ≤ (d2 ++ '.' :: (tl2 ++ rest2)).length :=
      le_trans hi0 (length_takeWhile_le_len _ _)
    have hju : j ≤ ((d2 ++ '.' :: (tl2 ++ rest2)).drop (i + 1)).length :=
      le_trans hjrun (length_takeWhile_le_len _ _)
    have hkey : d2.length + tl2.length ≤ i + j := by
      rcases lt_trichotomy d2.length i with hlt | heqi | hgt
      · -- earlier dot: the final segment cannot reach the matcher's dot
        have hsum : d2.length + tl2.length < i := by
          by_contra hcon
          push_neg at hcon
          have hkj : i - d2.length - 1 < tl2.length := by omega
          have hv2k : (d2 ++ '.' :: (tl2 ++ rest2)).get?
              (d2.length + 1 + (i - d2.length - 1)) = (tl2 ++ rest2).get? (i - d2.length - 1) := by
            rw [← List.get?_drop, hdrop2]
          have heqpos : d2.length + 1 + (i - d2.length - 1) = i := by omega
          rw [heqpos] at hv2k
          have hdottl : tl2.get? (i - d2.length - 1) = some '.' := by
            rw [← get?_append_left_len tl2 rest2 _ (by omega), ← hv2k]
            exact hdot
          have hmem : '.' ∈ tl2 := List.get?_mem hdottl
          exact absurd (htl2c '.' hmem) (by decide)
        omega
      · -- same dot: the matcher's final segment is the longest
        have hu : (d2 ++ '.' :: (tl2 ++ rest2)).drop (i + 1) = tl2 ++ rest2 := by
          rw [← heqi]
          exact hdrop2
        have hj2le : tl2.length ≤ j := by
          by_contra hcon
          push_neg at hcon
          have hfalse := tldSearch_max _ j hts tl2.length hcon (by rw [hu]; exact htl2run)
          rw [hu] at hfalse
          rw [htl2b] at hfalse
          exact Bool.noConfusion hfalse
        omega
      · -- later dot than the matcher's: dotSearch would have taken it
        have hnone := dotSearch_max _ _ i j hds d2.length hgt hd2run hdot2
        have hne : tldSearch ((d2 ++ '.' :: (tl2 ++ rest2)).drop (d2.length + 1)) ≠ none := by
          rw [hdrop2]
          exact tldSearch_complete _ tl2.length htl22 htl2run htl2b
        exact absurd hnone hne
    have hmlen : m.length =
        (s.takeWhile localChar).length + 1 + i + 1 + j := by
      rw [← h, List.length_append, List.length_cons, List.length_append,
        List.length_cons, List.length_take, List.length_take,
        Nat.min_eq_left hiv, Nat.min_eq_left hju]
      omega
    have hm2len : m2.length = l2.length + 1 + d2.length + 1 + tl2.length := by
      rw [hm2]
      simp [List.length_append]
      omega
    rw [hmlen, hm2len, htw2]
    omega

/-! ## The leftmost scan -/

theorem MatchFrom_nil (prev : Option Char) (m : List Char) :
    ¬ MatchFrom prev [] m := by
  rintro ⟨l, d, tl, rest, hm, hs, hl, -⟩
  obtain ⟨hm0, -⟩ := List.append_eq_nil.mp hs.symm
  rw [hm0] at hm
  exact hl (List.append_eq_nil.mp hm.symm).1

theorem prevOf_cons (prev : Option Char) (c : Char) (cs : List Char) (q : Nat) :
    prevOf prev (c :: cs) (q + 1) = prevOf (some c) cs q := by
  unfold prevOf
  cases q with
  | zero => simp
  | succ r => simp

theorem scanText_none (s : List Char) : ∀ prev, scanText prev s = none →
    ∀ p m, ¬ MatchFrom (prevOf prev s p) (s.drop p) m := by
  induction s with
  | nil =>
    intro prev _ p m hM
    exact MatchFrom_nil _ m (by simpa using hM)
  | cons c cs ih =>
    intro prev hscan p m
    unfold scanText at hscan
    cases hx : matchAt prev (c :: cs) with
    | some m2 => rw [hx] at hscan; exact absurd hscan (by simp)
    | none =>
      rw [hx] at hscan
      cases p with
      | zero =>
        intro hM
        exact matchAt_complete prev (c :: cs) m (by simpa [prevOf] using hM) hx
      | succ q =>
        intro hM
        apply ih (some c) hscan q m
        rw [← prevOf_cons prev c cs q]
        simpa using hM

theorem scanText_some (s : List Char) : ∀ prev m, scanText prev s = some m →
    ∃ p, matchAt (prevOf prev s p) (s.drop p) = some m ∧
      ∀ q, q < p → matchAt (prevOf prev s q) (s.drop q) = none := by
  induction s with
  | nil =>
    intro prev m h
    refine ⟨0, by simpa [prevOf] using h, ?_⟩
    intro q hq
    omega
  | cons c cs ih =>
    intro prev m h
    unfold scanText at h
    cases hx : matchAt prev (c :: cs) with
    | some m2 =>
      rw [hx] at h
      have hm : m2 = m := by simpa using h
      subst hm
      refine ⟨0, by simpa [prevOf] using hx, ?_⟩
      intro q hq
      omega
    | none =>
      rw [hx] at h
      obtain ⟨p, hp, hq⟩ := ih (some c) m h
      refine ⟨p + 1, ?_, ?_⟩
      · rw [prevOf_cons]
        simpa using hp
      · intro q hq2
        cases q with
        | zero => simpa [prevOf] using hx
        | succ r =>
          rw [prevOf_cons]
          simpa using hq r (by omega)

/-! ## The edge strip is a no-op on matches -/

theorem strip_chars_not_class (c : Char) (hc : c ∈ stripSet) :
    localChar c = false ∧ domainChar c = false ∧ tldChar c = false := by
  fin_cases hc <;> exact ⟨by decide, by decide, by decide⟩

theorem not_strip_of_local (c : Char) (h : localChar c = true) :
    stripSet.contains c = false := by
  by_cases hmem : stripSet.contains c = true
  · have hc : c ∈ stripSet := by simpa using hmem
    rw [(strip_chars_not_class c hc).1] at h
    exact Bool.noConfusion h
  · revert hmem
    cases stripSet.contains c <;> simp

theorem not_strip_of_domain (c : Char) (h : domainChar c = true) :
    stripSet.contains c = false := by
  by_cases hmem : stripSet.contains c = true
  · have hc : c ∈ stripSet := by simpa using hmem
    rw [(strip_chars_not_class c hc).2.1] at h
    exact Bool.noConfusion h
  · revert hmem
    cases stripSet.contains c <;> simp

theorem not_strip_of_tld (c : Char) (h : tldChar c = true) :
    stripSet.contains c = false := by
  by_cases hmem : stripSet.contains c = true
  · have hc : c ∈ stripSet := by simpa using hmem
    rw [(strip_chars_not_class c hc).2.2] at h
    exact Bool.noConfusion h
  · revert hmem
    cases stripSet.contains c <;> simp

theorem pyStrip_noop (s : List Char)
    (hh : ∀ c, s.head? = some c → stripSet.contains c = false)
    (hl : ∀ c, s.getLast? = some c → stripSet.contains c = false) :
    pyStrip stripSet s = s := by
  unfold pyStrip
  have h1 : s.dropWhile stripSet.contains = s := by
    cases s with
    | nil => rfl
    | cons x xs => exact List.dropWhile_cons_of_neg (by simpa using hh x rfl)
  rw [h1]
  have h2 : s.reverse.dropWhile stripSet.contains = s.reverse := by
    cases hrev : s.reverse with
    | nil => rfl
    | cons y ys =>
      have hy : s.getLast? = some y := by
        rw [← List.head?_reverse, hrev]
        rfl
      rw [List.dropWhile_cons_of_neg (by simpa using hl y hy)]
  rw [h2, List.reverse_reverse]

theorem getLast?_append_right_ne_nil (a b : List Char) (hb : b ≠ []) :
    (a ++ b).getLast? = b.getLast? := by
  rw [List.getLast?_append]
  cases hbl : b.getLast? with
  | none => exact absurd (List.getLast?_eq_none.mp hbl) hb
  | some y => rfl

/-- A declarative match starts with a local character and ends with a
final-segment character, and every character it holds avoids the strip
set. -/
theorem matchFrom_chars (prev : Option Char) (s m : List Char)
    (h : MatchFrom prev s m) :
    m ≠ [] ∧ '@' ∈ m ∧ (∀ c ∈ m, stripSet.contains c = false) ∧
      pyStrip stripSet m = m := by
  obtain ⟨l, d, tl, rest, hm, hs, hl, hlc, hd, hdc, htl, htlc, hb1, hb2⟩ := h
  have htlne : tl ≠ [] := List.ne_nil_of_length_pos (by omega)
  have hmne : m ≠ [] := by
    rw [hm]
    intro hcon
    exact hl (List.append_eq_nil.mp hcon).1
  have hat : '@' ∈ m := by
    rw [hm]
    simp
  have hall : ∀ c ∈ m, stripSet.contains c = false := by
    intro c hc
    rw [hm] at hc
    simp only [List.mem_append, List.mem_cons] at hc
    rcases hc with hc | hc | hc | hc | hc
    · exact not_strip_of_local c (hlc c hc)
    · subst hc
      decide
    · exact not_strip_of_domain c (hdc c hc)
    · subst hc
      decide
    · exact not_strip_of_tld c (htlc c hc)
  refine ⟨hmne, hat, hall, ?_⟩
  apply pyStrip_noop
  · intro c hcc
    rw [hm, head?_append_ne_nil l _ hl] at hcc
    have hcm : c ∈ l := by
      cases l with
      | nil => exact absurd rfl hl
      | cons x xs =>
        simp at hcc
        subst hcc
        exact List.mem_cons_self _ _
    exact not_strip_of_local c (hlc c hcm)
  · intro c hcc
    have hre : m = (l ++ '@' :: d ++ ['.']) ++ tl := by
      rw [hm]
      simp
    rw [hre, getLast?_append_right_ne_nil _ tl htlne,
      getLast?_eq_get?_pred tl htlne] at hcc
    exact not_strip_of_tld c (htlc c (List.get?_mem hcc))

/-! ## Contact extraction: claims C6 and C10 -/

/-- C6 (corrected, amended claim): extract_email returns, stripped (a
no-op), the match at the leftmost position of the text admitting a
word-boundary-delimited match of the pattern, and the longest match at
that position; it returns absent exactly when no position admits such a
match; and the example input yields the example address. Amended relative
to the claim's wording: the final dot-segment admits the pipe character
besides the letters (the source class is [A-Z|a-z]), and a match must be
flanked by word boundaries. -/
theorem c6_extract_first_match :
    (∀ t m, extract_email t = some m →
      ∃ p, SpecMatchAt t p m ∧
        (∀ q m2, q < p → ¬ SpecMatchAt t q m2) ∧
        (∀ m2, SpecMatchAt t p m2 → m2.length ≤ m.length)) ∧
    (∀ t, extract_email t = none → ∀ p m, ¬ SpecMatchAt t p m) ∧
    extract_email "contact: <jane.doe+dev@example.co.uk> for info".toList =
      some "jane.doe+dev@example.co.uk".toList := by
  refine ⟨?_, ?_, by decide⟩
  · intro t m hx
    unfold extract_email at hx
    cases hscan : scanText none t with
    | none =>
      rw [hscan] at hx
      exact absurd hx (by simp)
    | some m0 =>
      rw [hscan] at hx
      obtain ⟨p, hp, hq⟩ := scanText_some t none m0 hscan
      have hM : MatchFrom (prevOf none t p) (t.drop p) m0 := matchAt_sound _ _ _ hp
      have hstrip := (matchFrom_chars _ _ _ hM).2.2.2
      have hm0 : m = m0 := by
        rw [← (by simpa using hx : pyStrip stripSet m0 = m), hstrip]
      subst hm0
      exact ⟨p, hM, fun q m2 hqp hM2 => matchAt_complete _ _ m2 hM2 (hq q hqp),
        fun m2 hM2 => matchAt_max _ _ m hp m2 hM2⟩
  · intro t hx p m
    unfold extract_email at hx
    cases hscan : scanText none t with
    | some m0 =>
      rw [hscan] at hx
      exact absurd hx (by simp)
    | none => exact scanText_none t none hscan p m

/-- C6's counterexample: on the text x@y.a|b the source returns the whole
text (its final-segment class admits the pipe character), although no
substring of that text belongs to the claim's letters-only address
grammar -- where the claim says the result should be absent. -/
theorem c6_extract_counterexample :
    extract_email "x@y.a|b".toList = some "x@y.a|b".toList ∧
    claimHasGrammarSub "x@y.a|b".toList = false := by
  exact ⟨by decide, by decide⟩

/-- C10 (confirmed): a returned value is non-empty, contains the at sign,
every one of its characters avoids the strip set (so edge stripping is a
no-op), and it equals the raw first match of the scan unchanged. -/
theorem c10_strip_noop (t m : List Char) (h : extract_email t = some m) :
    m ≠ [] ∧ '@' ∈ m ∧ (∀ c ∈ m, stripSet.contains c = false) ∧
      scanText none t = some m := by
  unfold extract_email at h
  cases hscan : scanText none t with
  | none =>
    rw [hscan] at h
    exact absurd h (by simp)
  | some m0 =>
    rw [hscan] at h
    obtain ⟨p, hp, -⟩ := scanText_some t none m0 hscan
    have hM := matchAt_sound _ _ _ hp
    obtain ⟨hne, hat, hall, hstrip⟩ := matchFrom_chars _ _ _ hM
    have hm0 : m = m0 := by
      rw [← (by simpa using h : pyStrip stripSet m0 = m), hstrip]
    subst hm0
    exact ⟨hne, hat, hall, rfl⟩

/-- Witness for C10 at a concrete text. -/
theorem c10_strip_noop_witness :
    "a@b.cc".toList ≠ ([] : List Char) ∧ '@' ∈ "a@b.cc".toList ∧
    (∀ c ∈ "a@b.cc".toList, stripSet.contains c = false) ∧
      scanText none "see a@b.cc now".toList = some "a@b.cc".toList :=
  c10_strip_noop "see a@b.cc now".toList "a@b.cc".toList (by decide)

end Stargeezers
